import Mathlib

/-!
# Verification of the garmin-to-notion sync scripts

Shallow embedding of the three Python scripts `sleep-data.py`,
`daily-steps.py` and `garmin-activities.py`, together with proofs of the
spec's claims about the reconciliation engine.

Representation conventions (documented once here, used throughout):

* Calendar dates travel through the Python code as ISO `YYYY-MM-DD` strings
  (`date.isoformat()`); Notion's range filters compare them as dates, the
  indexer truncates a stored `Date.start` with `[:10]`, and dict keys are
  these strings.  We represent an ISO date string by its (injectively
  corresponding) day number, an `Int`; `isoformat` becomes the identity,
  `[:10]` becomes the projection from a stored date value to its day, and
  the lexicographic order on the strings becomes `≤` on `Int`.
* Python `dict.get(k)` returns `None` both when the key is absent and when
  it is present with value `None`; wherever the code only ever reads a
  field through such a conflating access (all of `sleep-data.py`), the
  field is modelled as a single `Option`.  In `garmin-activities.py` the
  code uses `activity.get(k, 0)`, which distinguishes the two cases, so
  there the fields are modelled as `Option (Option ℚ)`
  (absent / present-null / value).
* Python floats are modelled as `ℚ`.  `round(x, n)` is modelled as exact
  decimal rounding on `ℚ` (`round1`, `round2`); no claim in scope depends
  on the float tie-breaking direction.
* Formatted local ISO-8601 datetime strings (`ts_to_iso_local`) are
  represented by their underlying epoch-millisecond timestamps (the
  formatting is injective); `HH:MM` strings and `"Hh Mm"` duration strings
  are built honestly as strings.
* Exceptions raised by collaborator calls are modelled with `Except` /
  error-injecting environment functions; `try/except` blocks become the
  corresponding case analyses.
-/

/-!
## Definitions
-/

/-- Python truthiness of an optional integer: `None` and `0` are falsy. -/
def optTruthy : Option Int → Bool
  | none => false
  | some n => n != 0

/-- Exact rounding of a rational to 1 decimal place (models `round(x, 1)`). -/
def round1 (q : ℚ) : ℚ := (round (q * 10) : ℤ) / 10

/-- Exact rounding of a rational to 2 decimal places (models `round(x, 2)`). -/
def round2 (q : ℚ) : ℚ := (round (q * 100) : ℤ) / 100

/-- Left-pad a numeral to two digits, as `%02d` / `strftime` do. -/
def pad2 (n : Int) : String :=
  if n < 10 then "0" ++ toString n else toString n

/-- `format_duration` (sleep-data.py line 28): `(seconds or 0) // 60`
minutes, rendered as `"Hh Mm"` with Python floor division/modulo. -/
def formatDuration (seconds : Option Int) : String :=
  let minutes := (seconds.getD 0).fdiv 60
  let h := minutes.fdiv 60
  let m := minutes.fmod 60
  s!"{h}h {m}m"

/-- Fixed offset of the script's reference zone Asia/Seoul (KST, UTC+09:00,
no daylight saving time). -/
def kstOffsetSeconds : Int := 9 * 3600

/-- `ts_to_hhmm_local` (sleep-data.py line 41): Garmin GMT epoch-ms to a
KST `HH:MM` string; falsy (`None` or `0`) timestamps render `"Unknown"`. -/
def tsToHhmmLocal (timestampMs : Option Int) : String :=
  if !(optTruthy timestampMs) then "Unknown"
  else
    let secs := (timestampMs.getD 0).fdiv 1000
    let sod := (secs + kstOffsetSeconds).fmod 86400
    pad2 (sod.fdiv 3600) ++ ":" ++ pad2 ((sod.fmod 3600).fdiv 60)

/-- `ts_to_iso_local` (sleep-data.py line 33): falsy timestamps give
`None`; otherwise the KST ISO-8601 string, represented here by the
timestamp itself (the formatting is injective on epoch-ms values). -/
def tsToIsoLocal (timestampMs : Option Int) : Option Int :=
  if !(optTruthy timestampMs) then none else timestampMs

/-- The `dailySleepDTO` sub-structure of a Garmin sleep payload.  Fields the
code reads via conflating accesses are single `Option`s (see header).
`calendarDate` is the date embedded in the payload; the sleep script never
reads it (claim C2). -/
structure DailySleep where
  calendarDate : Option Int
  sleepStartTimestampGMT : Option Int
  sleepEndTimestampGMT : Option Int
  deepSleepSeconds : Option Int
  lightSleepSeconds : Option Int
  remSleepSeconds : Option Int
  awakeSleepSeconds : Option Int
  restingHeartRate : Option Int
  deriving Repr, DecidableEq

/-- A Garmin sleep payload.  `dailySleepDTO = none` covers both an absent
and an empty (falsy) sub-dict, the two cases `if not daily_sleep` rejects. -/
structure SleepData where
  dailySleepDTO : Option DailySleep
  restingHeartRate : Option Int
  deriving Repr, DecidableEq

/-- The Notion property set built for one sleep page (sleep-data.py lines
129-158).  Hour values are `ℚ` (floats), the `Date` start is the pinned
target day, `fullDateTime` is the optional `Full Date/Time` range with ISO
datetimes represented by their timestamps. -/
structure SleepProps where
  timesTitle : String
  dateStart : Int
  totalSleepH : ℚ
  lightSleepH : ℚ
  deepSleepH : ℚ
  remSleepH : ℚ
  awakeTimeH : ℚ
  totalSleepStr : String
  lightSleepStr : String
  deepSleepStr : String
  remSleepStr : String
  awakeTimeStr : String
  restingHR : Int
  fullDateTime : Option (Int × Option Int)
  deriving Repr, DecidableEq

/-- `build_sleep_properties_for_target_date` (sleep-data.py lines 102-160).
Rejects (returns `none`) when the `dailySleepDTO` is absent/empty, when a
start/end timestamp is falsy (`not start_ts or not end_ts`), or when the
summed deep+light+REM seconds are zero under the skip-zero policy.  The
`Date` property is always pinned to `target_date`. -/
def buildSleepPropertiesForTargetDate (sleep_data : SleepData) (target_date : Int)
    (skip_zero_sleep : Bool) : Option SleepProps :=
  match sleep_data.dailySleepDTO with
  | none => none
  | some daily_sleep =>
    let start_ts := daily_sleep.sleepStartTimestampGMT
    let end_ts := daily_sleep.sleepEndTimestampGMT
    if !(optTruthy start_ts) || !(optTruthy end_ts) then none
    else
      let total_sleep := daily_sleep.deepSleepSeconds.getD 0 +
        daily_sleep.lightSleepSeconds.getD 0 + daily_sleep.remSleepSeconds.getD 0
      if skip_zero_sleep && total_sleep == 0 then none
      else
        let rhr := (sleep_data.restingHeartRate.orElse
          fun _ => daily_sleep.restingHeartRate).getD 0
        some {
          timesTitle := tsToHhmmLocal start_ts ++ " → " ++ tsToHhmmLocal end_ts
          dateStart := target_date
          totalSleepH := round1 ((total_sleep : ℚ) / 3600)
          lightSleepH := round1 ((daily_sleep.lightSleepSeconds.getD 0 : ℚ) / 3600)
          deepSleepH := round1 ((daily_sleep.deepSleepSeconds.getD 0 : ℚ) / 3600)
          remSleepH := round1 ((daily_sleep.remSleepSeconds.getD 0 : ℚ) / 3600)
          awakeTimeH := round1 ((daily_sleep.awakeSleepSeconds.getD 0 : ℚ) / 3600)
          totalSleepStr := formatDuration (some total_sleep)
          lightSleepStr := formatDuration (some (daily_sleep.lightSleepSeconds.getD 0))
          deepSleepStr := formatDuration (some (daily_sleep.deepSleepSeconds.getD 0))
          remSleepStr := formatDuration (some (daily_sleep.remSleepSeconds.getD 0))
          awakeTimeStr := formatDuration (some (daily_sleep.awakeSleepSeconds.getD 0))
          restingHR := rhr
          fullDateTime :=
            match tsToIsoLocal start_ts with
            | none => none
            | some s => some (s, tsToIsoLocal end_ts) }

/-- A raw Notion page as seen by the indexer.  `dateStart` models
`properties["Date"]["date"]["start"][:10]` (see header: the day number of
the stored start; `none` when the `Date` property or its `start` is
missing/falsy).  `restingHRNum` models `properties["Resting HR"]["number"]`
(`none` for absent or null). -/
structure RawPage where
  pageId : Nat
  dateStart : Option Int
  restingHRNum : Option Int
  deriving Repr, DecidableEq

/-- One indexed sink entry (sleep-data.py lines 88-90). -/
structure SinkEntry where
  page_id : Nat
  resting_hr : Int
  deriving Repr, DecidableEq

/-- The per-entry extraction: `{"page_id": page["id"], "resting_hr": rhr}`
with `rhr = props.get("Resting HR", {}).get("number", 0) or 0`. -/
def pageEntry (pg : RawPage) : SinkEntry :=
  { page_id := pg.pageId, resting_hr := pg.restingHRNum.getD 0 }

/-- Processing one page of one query response (sleep-data.py lines 78-90):
pages without a usable `Date.start` are skipped, others are appended to
their day's list (`by_date.setdefault(day, []).append(...)`). -/
def addPage (idx : Int → List SinkEntry) (pg : RawPage) : Int → List SinkEntry :=
  match pg.dateStart with
  | none => idx
  | some day => fun d => if d = day then idx d ++ [pageEntry pg] else idx d

/-- The empty index. -/
def emptyIndex : Int → List SinkEntry := fun _ => []

/-- `notion_fetch_existing_pages_by_date` (sleep-data.py lines 52-96): the
cursor-following `while True` loop.  The paginated store is modelled by the
sequence of responses of the successive `databases.query` calls: the `i`-th
list element is what the `i`-th call returns (a chunk of results, or a
raised exception as `.error`), and `has_more` is true exactly while further
elements follow.  Errors are not caught: the first erroring call aborts the
whole indexing with that error. -/
def notionFetchExistingPagesByDate :
    List (Except String (List RawPage)) → (Int → List SinkEntry) →
    Except String (Int → List SinkEntry)
  | [], idx => .ok idx
  | .error e :: _, _ => .error e
  | .ok results :: rest, idx =>
      notionFetchExistingPagesByDate rest (results.foldl addPage idx)

/-- The Notion-side range filter of the indexing query (sleep-data.py lines
70-75): keep pages whose `Date` lies in `[startDay, endDay]` inclusive;
pages without a date never match a date filter. -/
def queryChunk (store : List RawPage) (startDay endDay : Int) : List RawPage :=
  store.filter fun pg =>
    match pg.dateStart with
    | some dy => decide (startDay ≤ dy) && decide (dy ≤ endDay)
    | none => false

/-- A destination write performed by the sleep sync: a page creation with a
property set, or an update of an existing page. -/
inductive WriteOp where
  | create (props : SleepProps)
  | update (pageId : Nat) (props : SleepProps)
  deriving Repr, DecidableEq

/-- The collaborators of one sleep-sync run: the Garmin fetch for a given
day (which may raise), and the error behaviour of the Notion create/update
calls (`none` = the call succeeds, `some e` = it raises `e`). -/
structure Env where
  fetch : Int → Except String SleepData
  createErr : SleepProps → Option String
  updateErr : Nat → SleepProps → Option String

/-- The mutable state of one run: the five counters of
`sync_sleep_range_last_n_days` plus, for the proofs, the log of Garmin
fetch calls attempted and of destination writes performed. -/
structure RunState where
  created : Nat
  updated : Nat
  skipped : Nat
  errors : Nat
  duplicateDates : Nat
  fetches : List Int
  writes : List WriteOp
  deriving Repr, DecidableEq

/-- The all-zero initial state (sleep-data.py lines 214-218). -/
def initState : RunState :=
  { created := 0, updated := 0, skipped := 0, errors := 0,
    duplicateDates := 0, fetches := [], writes := [] }

/-- sleep-data.py lines 227-228: bump the duplicate-dates counter when a
day has more than one indexed page. -/
def countDup (pages : List SinkEntry) (st : RunState) : RunState :=
  if 1 < pages.length then { st with duplicateDates := st.duplicateDates + 1 }
  else st

/-- sleep-data.py line 231: `pages and any(p["resting_hr"] > 0 ...)`. -/
def hasValidEntry (pages : List SinkEntry) : Bool :=
  !pages.isEmpty && pages.any fun p => decide (0 < p.resting_hr)

/-- The update loop of sleep-data.py lines 262-264, run inside the write
`try`: each successful `pages.update` appends a write and bumps `updated`;
the first raising call aborts the loop and is caught at the date boundary,
bumping `errors` (line 273). -/
def updateLoop (env : Env) (props : SleepProps) :
    List SinkEntry → RunState → RunState
  | [], st => st
  | p :: rest, st =>
    match env.updateErr p.page_id props with
    | some _ => { st with errors := st.errors + 1 }
    | none =>
        updateLoop env props rest
          { st with updated := st.updated + 1,
                    writes := st.writes ++ [WriteOp.update p.page_id props] }

/-- One iteration of the per-date loop of `sync_sleep_range_last_n_days`
(sleep-data.py lines 220-274): duplicate detection, the Rule-3 skip when
any entry has `resting_hr > 0`, the guarded Garmin fetch, normalization,
and the guarded create / update-all-duplicates writes. -/
def syncDay (env : Env) (byDate : Int → List SinkEntry) (skip_zero_sleep : Bool)
    (st : RunState) (d : Int) : RunState :=
  let pages := byDate d
  let st := countDup pages st
  if hasValidEntry pages then { st with skipped := st.skipped + 1 }
  else
    let st := { st with fetches := st.fetches ++ [d] }
    match env.fetch d with
    | .error _ => { st with errors := st.errors + 1 }
    | .ok sleep_data =>
      match buildSleepPropertiesForTargetDate sleep_data d skip_zero_sleep with
      | none => { st with skipped := st.skipped + 1 }
      | some props =>
        if pages.isEmpty then
          match env.createErr props with
          | some _ => { st with errors := st.errors + 1 }
          | none =>
              { st with created := st.created + 1,
                        writes := st.writes ++ [WriteOp.create props] }
        else updateLoop env props pages st

/-- The date loop (`for i in range(n_days)`), folded left over the window
dates in order. -/
def runLoop (env : Env) (byDate : Int → List SinkEntry) (skip : Bool)
    (dates : List Int) (st : RunState) : RunState :=
  dates.foldl (syncDay env byDate skip) st

/-- The first day of the window: `today - timedelta(days=n_days - 1)`
(sleep-data.py line 206; the subtraction is on `Int` as in Python). -/
def startDayOf (today : Int) (nDays : Nat) : Int := today - ((nDays : Int) - 1)

/-- The window dates `start_day + timedelta(days=i)` for `i in
range(n_days)` (sleep-data.py lines 220-221). -/
def windowDates (today : Int) (nDays : Nat) : List Int :=
  (List.range nDays).map fun (i : Nat) => startDayOf today nDays + (i : Int)

/-- `datetime.now(LOCAL_TZ).date()` (sleep-data.py line 205): the KST civil
day of the current UTC instant, using the fixed reference offset. -/
def todayKstOf (nowUtcMs : Int) : Int :=
  ((nowUtcMs.fdiv 1000) + kstOffsetSeconds).fdiv 86400

/-- `sync_sleep_range_last_n_days` (sleep-data.py lines 189-281) after
login, over an abstract store and collaborator environment: index the
destination pages of the window (uncaught on error), then fold the per-date
loop over the window.  Returns the final counters, or the uncaught indexing
error. -/
def syncSleepRangeLastNDays (env : Env)
    (chunks : List (Except String (List RawPage)))
    (today : Int) (nDays : Nat) (skip_zero_sleep : Bool) :
    Except String RunState :=
  match notionFetchExistingPagesByDate chunks emptyIndex with
  | .error e => .error e
  | .ok byDate =>
      .ok (runLoop env byDate skip_zero_sleep (windowDates today nDays) initState)

/-- A page id strictly greater than every id in the store, used for pages
created during a run (Notion allocates fresh ids). -/
def freshId (store : List RawPage) : Nat :=
  (store.map RawPage.pageId).foldl max 0 + 1

/-- The effect of one destination write on the stored pages (and the next
fresh id): `pages.create` appends a page carrying the written `Date` and
`Resting HR` values; `pages.update` overwrites those properties on the
addressed page. -/
def applyWrite : List RawPage × Nat → WriteOp → List RawPage × Nat
  | (s, nid), .create props =>
      (s ++ [{ pageId := nid, dateStart := some props.dateStart,
               restingHRNum := some props.restingHR }], nid + 1)
  | (s, nid), .update pid props =>
      (s.map fun pg =>
        if pg.pageId = pid then
          { pg with dateStart := some props.dateStart,
                    restingHRNum := some props.restingHR }
        else pg, nid)

/-- Replay a list of writes against a store. -/
def applyWrites (s : List RawPage) (nid : Nat) (ws : List WriteOp) : List RawPage :=
  (ws.foldl applyWrite (s, nid)).1

/-- One run of the sleep sync against a store that answers the indexing
query with a single complete, correctly filtered chunk. -/
def runOnStore (env : Env) (store : List RawPage) (today : Int) (nDays : Nat)
    (skip : Bool) : Except String RunState :=
  syncSleepRangeLastNDays env [.ok (queryChunk store (startDayOf today nDays) today)]
    today nDays skip

/-- The destination store after one run: the run's writes replayed with
fresh ids for created pages (unchanged if the run failed to start). -/
def storeAfter (env : Env) (store : List RawPage) (today : Int) (nDays : Nat)
    (skip : Bool) : List RawPage :=
  match runOnStore env store today nDays skip with
  | .ok st => applyWrites store (freshId store) st.writes
  | .error _ => store

/-- A Garmin daily-steps payload.  All reads in daily-steps.py go through
`steps.get(k)` / `steps.get(k) or 0`, so absent and null conflate. -/
structure StepsPayload where
  calendarDate : Option Int
  totalSteps : Option Int
  stepGoal : Option Int
  totalDistance : Option ℚ
  deriving Repr, DecidableEq

/-- The property set written by `create_daily_steps` (daily-steps.py lines
85-91).  Note the `Date` start is the payload's `calendarDate`, not the
loop's date. -/
structure StepsProps where
  dateStart : Option Int
  totalSteps : Int
  stepGoal : Int
  totalDistanceKm : ℚ
  deriving Repr, DecidableEq

/-- The property set written by `update_daily_steps` (daily-steps.py lines
60-65); it carries no `Date` property at all. -/
structure StepsUpdateProps where
  totalSteps : Int
  stepGoal : Int
  totalDistanceKm : ℚ
  deriving Repr, DecidableEq

/-- `create_daily_steps` (daily-steps.py lines 74-102), returning the
property set it writes, or `none` when the zero-steps skip fires. -/
def createDailySteps (steps : StepsPayload) (skip_zero_steps : Bool) :
    Option StepsProps :=
  let total_steps := steps.totalSteps.getD 0
  if skip_zero_steps && total_steps == 0 then none
  else some {
    dateStart := steps.calendarDate
    totalSteps := total_steps
    stepGoal := steps.stepGoal.getD 0
    totalDistanceKm := round2 (steps.totalDistance.getD 0 / 1000) }

/-- `update_daily_steps` (daily-steps.py lines 56-71), returning the
property set it writes (no `Date` field). -/
def updateDailySteps (new_steps : StepsPayload) : StepsUpdateProps :=
  { totalSteps := new_steps.totalSteps.getD 0
    stepGoal := new_steps.stepGoal.getD 0
    totalDistanceKm := round2 (new_steps.totalDistance.getD 0 / 1000) }

/-- `steps_need_update` (daily-steps.py lines 41-53). -/
def stepsNeedUpdate (existing : StepsUpdateProps) (new_steps : StepsPayload) : Bool :=
  existing.totalSteps != new_steps.totalSteps.getD 0 ||
  existing.stepGoal != new_steps.stepGoal.getD 0 ||
  existing.totalDistanceKm != round2 (new_steps.totalDistance.getD 0 / 1000)

/-- The create-or-skip path of one iteration of the daily-steps loop
(daily-steps.py lines 136-148): fetch the payload for the loop day `d`,
look up an existing entry under the **payload's** `calendarDate`, and when
none exists create via `create_daily_steps`.  Returns the property set
written by a create, `none` when nothing is created (no data, existing
entry, or zero-steps skip). -/
def stepsSyncDayCreate (fetch : Int → Option StepsPayload)
    (existing : Option Int → Option Nat) (d : Int) : Option StepsProps :=
  match fetch d with
  | none => none
  | some steps_data =>
    match existing steps_data.calendarDate with
    | some _ => none
    | none => createDailySteps steps_data true

/-- `date.today()` as used by daily-steps.py line 130: the civil day of the
current instant in the **execution environment's local zone**, whose UTC
offset is a parameter of the run, unlike the fixed KST day `todayKstOf`. -/
def todayLocalOf (nowUtcMs : Int) (localOffsetSeconds : Int) : Int :=
  ((nowUtcMs.fdiv 1000) + localOffsetSeconds).fdiv 86400

/-- The dates visited by the daily-steps loop (daily-steps.py lines
128-150): `d = today - 365; while d < today: ...; d += 1`, i.e. the 365
days before and **excluding** today. -/
def stepsDates (today : Int) : List Int :=
  (List.range 365).map fun (i : Nat) => today - 365 + (i : Int)

/-- Python `activity.get(k, 0)`: absent gives the default `0`, a present
null stays null. -/
def pyGetNum (field : Option (Option ℚ)) : Option ℚ :=
  match field with
  | none => some 0
  | some v => v

/-- Division of a possibly-null Python number by a constant: null raises. -/
def pyDivC (x : Option ℚ) (c : ℚ) : Except Unit ℚ :=
  match x with
  | none => .error ()
  | some v => .ok (v / c)

/-- `round(x, 1)` on a possibly-null Python number: null raises. -/
def pyRound1 (x : Option ℚ) : Except Unit ℚ :=
  match x with
  | none => .error ()
  | some v => .ok (round1 v)

/-- `round(x)` on a possibly-null Python number: null raises. -/
def pyRound0 (x : Option ℚ) : Except Unit ℤ :=
  match x with
  | none => .error ()
  | some v => .ok (round v)

/-- The numeric fields of a Garmin activity summary read by
`create_activity`. -/
structure Activity where
  distance : Option (Option ℚ)
  duration : Option (Option ℚ)
  calories : Option (Option ℚ)
  averageSpeed : Option (Option ℚ)
  avgPower : Option (Option ℚ)
  maxPower : Option (Option ℚ)
  aerobicTrainingEffect : Option (Option ℚ)
  anaerobicTrainingEffect : Option (Option ℚ)
  deriving Repr, DecidableEq

/-- `format_pace` (garmin-activities.py lines 101-108): a null average
speed raises on the `> 0` comparison; a non-positive speed gives `""`;
otherwise `min:sec min/km` from `1000 / (speed * 60)` with `int`
truncation (the argument is positive, so truncation is `⌊·⌋`). -/
def formatPace (average_speed : Option ℚ) : Except Unit String :=
  match average_speed with
  | none => .error ()
  | some v =>
    if 0 < v then
      let pace_min_km := 1000 / (v * 60)
      let minutes : ℤ := ⌊pace_min_km⌋
      let seconds : ℤ := ⌊(pace_min_km - minutes) * 60⌋
      .ok (toString minutes ++ ":" ++ pad2 seconds ++ " min/km")
    else .ok ""

/-- The numeric property values computed by `create_activity`
(garmin-activities.py lines 142-151). -/
structure ActivityNumbers where
  distanceKm : ℚ
  durationMin : ℚ
  calories : ℤ
  avgPace : String
  avgPower : ℚ
  maxPower : ℚ
  aerobic : ℚ
  anaerobic : ℚ
  deriving Repr, DecidableEq

/-- The arithmetic-bearing fields of `create_activity`'s `properties` dict
(garmin-activities.py lines 137-155); the non-arithmetic title / select /
checkbox fields are omitted, as no claim concerns them.  Each field applies
`round` / division / comparison to the `activity.get(k, 0)` value, raising
(`.error ()`) when that value is null. -/
def createActivityNumericProps (activity : Activity) : Except Unit ActivityNumbers := do
  let distanceKm ← (pyDivC (pyGetNum activity.distance) 1000).map round2
  let durationMin ← (pyDivC (pyGetNum activity.duration) 60).map round2
  let calories ← pyRound0 (pyGetNum activity.calories)
  let avgPace ← formatPace (pyGetNum activity.averageSpeed)
  let avgPower ← pyRound1 (pyGetNum activity.avgPower)
  let maxPower ← pyRound1 (pyGetNum activity.maxPower)
  let aerobic ← pyRound1 (pyGetNum activity.aerobicTrainingEffect)
  let anaerobic ← pyRound1 (pyGetNum activity.anaerobicTrainingEffect)
  return { distanceKm, durationMin, calories, avgPace, avgPower, maxPower,
           aerobic, anaerobic }

/-- An activity with no null numeric field (each field absent or a value). -/
def Activity.NoNulls (a : Activity) : Prop :=
  a.distance ≠ some none ∧ a.duration ≠ some none ∧ a.calories ≠ some none ∧
  a.averageSpeed ≠ some none ∧ a.avgPower ≠ some none ∧ a.maxPower ≠ some none ∧
  a.aerobicTrainingEffect ≠ some none ∧ a.anaerobicTrainingEffect ≠ some none

/-- Replace absent numeric fields by explicit `0` values. -/
def Activity.zeroFill (a : Activity) : Activity :=
  { distance := some (pyGetNum a.distance)
    duration := some (pyGetNum a.duration)
    calories := some (pyGetNum a.calories)
    averageSpeed := some (pyGetNum a.averageSpeed)
    avgPower := some (pyGetNum a.avgPower)
    maxPower := some (pyGetNum a.maxPower)
    aerobicTrainingEffect := some (pyGetNum a.aerobicTrainingEffect)
    anaerobicTrainingEffect := some (pyGetNum a.anaerobicTrainingEffect) }

/-- The pages of the store whose stored date is day `d`. -/
def pagesOfDay (store : List RawPage) (d : Int) : List RawPage :=
  store.filter fun pg => decide (pg.dateStart = some d)

/-- The duplicate-counter increment a day's page list causes. -/
def dupBump (pages : List SinkEntry) : Nat := if 1 < pages.length then 1 else 0

/-- The update writes the update loop performs (derived view of
`updateLoop`, stopping at the first raising call). -/
def updateWritesList (env : Env) (props : SleepProps) : List SinkEntry → List WriteOp
  | [] => []
  | p :: rest =>
    match env.updateErr p.page_id props with
    | some _ => []
    | none => WriteOp.update p.page_id props :: updateWritesList env props rest

/-- The destination writes one day's iteration emits (derived view of
`syncDay`; the decisions of `syncDay` do not depend on the accumulated
counters). -/
def dayWrites (env : Env) (byDate : Int → List SinkEntry) (z : Bool) (d : Int) :
    List WriteOp :=
  let pages := byDate d
  if hasValidEntry pages then []
  else
    match env.fetch d with
    | .error _ => []
    | .ok sd =>
      match buildSleepPropertiesForTargetDate sd d z with
      | none => []
      | some props =>
        if pages.isEmpty then
          match env.createErr props with
          | some _ => []
          | none => [WriteOp.create props]
        else updateWritesList env props pages

/-- An environment in which no collaborator call raises. -/
def Env.ErrorFree (env : Env) : Prop :=
  (∀ d, ∃ sd, env.fetch d = .ok sd) ∧
  (∀ p, env.createErr p = none) ∧
  (∀ i p, env.updateErr i p = none)

/-- The per-date step at `d` only counts a skip (and possibly a duplicate
and a fetch): no write, no create, no update, no error. -/
def SkipOnly (env : Env) (byDate : Int → List SinkEntry) (z : Bool) (d : Int) : Prop :=
  ∀ st : RunState,
    (syncDay env byDate z st d).writes = st.writes ∧
    (syncDay env byDate z st d).created = st.created ∧
    (syncDay env byDate z st d).updated = st.updated ∧
    (syncDay env byDate z st d).errors = st.errors ∧
    (syncDay env byDate z st d).skipped = st.skipped + 1

/-- The property overwrite an update with `props` performs on a page. -/
def setProps (props : SleepProps) (pg : RawPage) : RawPage :=
  { pg with dateStart := some props.dateStart, restingHRNum := some props.restingHR }

/-- One update write, applied pointwise to the store. -/
def updIf (pid : Nat) (props : SleepProps) (pg : RawPage) : RawPage :=
  if pg.pageId = pid then setProps props pg else pg

/-- The combined effect of updating every page id in `ids` with `props`. -/
def bigUpd (props : SleepProps) (ids : List Nat) (pg : RawPage) : RawPage :=
  if pg.pageId ∈ ids then setProps props pg else pg

/-- `applyWrites` keeping the fresh-id counter. -/
def applyWritesP (p : List RawPage × Nat) (ws : List WriteOp) : List RawPage × Nat :=
  ws.foldl applyWrite p

/-- Some stored page of day `d` carries a positive validity signal. -/
def validDay (S : List RawPage) (d : Int) : Prop :=
  ∃ pg ∈ pagesOfDay S d, 0 < pg.restingHRNum.getD 0

/-- Day `d` has no valid stored page and its fetched payload is rejected by
the normalizer. -/
def rejectDay (env : Env) (store : List RawPage) (z : Bool) (d : Int) : Prop :=
  (∀ pg ∈ pagesOfDay store d, ¬ 0 < pg.restingHRNum.getD 0) ∧
  ∃ sd, env.fetch d = .ok sd ∧ buildSleepPropertiesForTargetDate sd d z = none

/-- After a run over the snapshot `store`, day `d` of the written store `S`
either carries a valid page, or is untouched with a normalizer-rejected
payload. -/
def GoodDay (env : Env) (store : List RawPage) (z : Bool) (S : List RawPage)
    (d : Int) : Prop :=
  validDay S d ∨ (pagesOfDay S d = pagesOfDay store d ∧ rejectDay env store z d)

/-- A complete sleep payload: timestamps present, one hour of deep sleep. -/
def dsValid : DailySleep :=
  { calendarDate := some 0, sleepStartTimestampGMT := some 1000000,
    sleepEndTimestampGMT := some 2000000, deepSleepSeconds := some 3600,
    lightSleepSeconds := none, remSleepSeconds := none,
    awakeSleepSeconds := none, restingHeartRate := none }

/-- A sleep payload with a resting heart rate of 60. -/
def sdValid : SleepData :=
  { dailySleepDTO := some dsValid, restingHeartRate := some 60 }

/-- The same sleep payload without any resting heart rate. -/
def sdNoRhr : SleepData :=
  { dailySleepDTO := some dsValid, restingHeartRate := none }

/-- A sleep payload whose start timestamp is the integer 0. -/
def dsZeroStart : DailySleep :=
  { calendarDate := none, sleepStartTimestampGMT := some 0,
    sleepEndTimestampGMT := some 2000000, deepSleepSeconds := some 3600,
    lightSleepSeconds := none, remSleepSeconds := none,
    awakeSleepSeconds := none, restingHeartRate := none }

/-- `dsZeroStart` wrapped as a payload. -/
def sdZeroStart : SleepData :=
  { dailySleepDTO := some dsZeroStart, restingHeartRate := none }

/-- Collaborators that never raise and always return `sdValid`. -/
def envValid : Env :=
  { fetch := fun _ => .ok sdValid, createErr := fun _ => none,
    updateErr := fun _ _ => none }

/-- Collaborators that never raise and always return `sdNoRhr`. -/
def envNoRhr : Env :=
  { fetch := fun _ => .ok sdNoRhr, createErr := fun _ => none,
    updateErr := fun _ _ => none }

/-- Collaborators whose Garmin fetch always raises. -/
def envFetchFail : Env :=
  { fetch := fun _ => .error "network", createErr := fun _ => none,
    updateErr := fun _ _ => none }

/-- Day 0 has one invalid and one valid sink entry. -/
def byDateMixed : Int → List SinkEntry :=
  fun d => if d = 0 then [⟨1, 0⟩, ⟨2, 70⟩] else []

/-- Day 0 has two duplicate invalid sink entries. -/
def byDateDup : Int → List SinkEntry :=
  fun d => if d = 0 then [⟨1, 0⟩, ⟨2, 0⟩] else []

/-- An empty sink index. -/
def byDateEmpty : Int → List SinkEntry := fun _ => []

/-- A steps payload whose embedded calendar date is day 1. -/
def stepsPayloadCx : StepsPayload :=
  { calendarDate := some 1, totalSteps := some 100, stepGoal := none,
    totalDistance := none }

/-- A steps fetch that always returns `stepsPayloadCx`. -/
def stepsFetchCx : Int → Option StepsPayload := fun _ => some stepsPayloadCx

/-- An existence check that never finds an entry. -/
def stepsNoExisting : Option Int → Option Nat := fun _ => none

/-- An activity whose `distance` key is present but null. -/
def activityNullDist : Activity :=
  { distance := some none, duration := none, calories := none,
    averageSpeed := none, avgPower := none, maxPower := none,
    aerobicTrainingEffect := none, anaerobicTrainingEffect := none }

/-- An activity with some fields absent and some carrying values. -/
def activityMixed : Activity :=
  { distance := some (some 1000), duration := none, calories := some (some 250),
    averageSpeed := some (some 3), avgPower := none, maxPower := none,
    aerobicTrainingEffect := none, anaerobicTrainingEffect := none }

/-- A sleep payload with no start timestamp. -/
def dsNoStart : DailySleep :=
  { calendarDate := none, sleepStartTimestampGMT := none,
    sleepEndTimestampGMT := some 2000000, deepSleepSeconds := some 3600,
    lightSleepSeconds := none, remSleepSeconds := none,
    awakeSleepSeconds := none, restingHeartRate := none }

/-- `dsNoStart` wrapped as a payload. -/
def sdNoStart : SleepData :=
  { dailySleepDTO := some dsNoStart, restingHeartRate := none }

/-- A sleep payload with timestamps but a zero deep+light+REM sum. -/
def dsZeroSleep : DailySleep :=
  { calendarDate := none, sleepStartTimestampGMT := some 1000000,
    sleepEndTimestampGMT := some 2000000, deepSleepSeconds := none,
    lightSleepSeconds := none, remSleepSeconds := none,
    awakeSleepSeconds := none, restingHeartRate := none }

/-- `dsZeroSleep` wrapped as a payload. -/
def sdZeroSleep : SleepData :=
  { dailySleepDTO := some dsZeroSleep, restingHeartRate := none }

/-!
## Theorems
-/

theorem mem_windowDates {today : Int} {n : Nat} {d : Int} :
    d ∈ windowDates today n ↔ startDayOf today n ≤ d ∧ d ≤ today := by
  unfold windowDates startDayOf
  rw [List.mem_map]
  constructor
  · rintro ⟨i, hi, rfl⟩
    rw [List.mem_range] at hi
    have : (i : Int) < (n : Int) := Int.ofNat_lt.mpr hi
    omega
  · rintro ⟨h1, h2⟩
    refine ⟨(d - (today - ((n : Int) - 1))).toNat, List.mem_range.mpr ?_, ?_⟩
    · omega
    · omega

theorem windowDates_nodup (today : Int) (n : Nat) : (windowDates today n).Nodup := by
  unfold windowDates
  refine List.Nodup.map ?_ (List.nodup_range n)
  intro i j h
  simp only [add_right_inj] at h
  exact_mod_cast h

theorem windowDates_length (today : Int) (n : Nat) :
    (windowDates today n).length = n := by
  unfold windowDates
  rw [List.length_map, List.length_range]

theorem today_mem_windowDates {today : Int} {n : Nat} (h : 1 ≤ n) :
    today ∈ windowDates today n := by
  rw [mem_windowDates]
  have : (1 : Int) ≤ (n : Int) := by exact_mod_cast h
  unfold startDayOf
  omega

theorem foldl_addPage_apply (ps : List RawPage) (idx : Int → List SinkEntry)
    (d : Int) :
    (ps.foldl addPage idx) d =
      idx d ++ (pagesOfDay ps d).map pageEntry := by
  induction ps generalizing idx with
  | nil => simp [pagesOfDay]
  | cons pg ps ih =>
    rw [List.foldl_cons, ih]
    unfold pagesOfDay
    cases h : pg.dateStart with
    | none => simp [addPage, h, pagesOfDay]
    | some day =>
      by_cases hd : d = day
      · subst hd
        simp [addPage, h, pagesOfDay, List.filter_cons]
      · simp [addPage, h, pagesOfDay, List.filter_cons, hd, Ne.symm hd]

theorem notionFetch_ok (pss : List (List RawPage)) (idx : Int → List SinkEntry) :
    notionFetchExistingPagesByDate (pss.map .ok) idx =
      .ok (pss.foldl (fun a ps => ps.foldl addPage a) idx) := by
  induction pss generalizing idx with
  | nil => rfl
  | cons ps pss ih => simp [notionFetchExistingPagesByDate, ih]

theorem notionFetch_error (pss : List (List RawPage)) (e : String)
    (rest : List (Except String (List RawPage))) (idx : Int → List SinkEntry) :
    notionFetchExistingPagesByDate (pss.map .ok ++ .error e :: rest) idx =
      .error e := by
  induction pss generalizing idx with
  | nil => rfl
  | cons ps pss ih => simp [notionFetchExistingPagesByDate, ih]

theorem pagesOfDay_queryChunk (store : List RawPage) {lo hi d : Int}
    (h1 : lo ≤ d) (h2 : d ≤ hi) :
    pagesOfDay (queryChunk store lo hi) d = pagesOfDay store d := by
  induction store with
  | nil => rfl
  | cons pg ps ih =>
    unfold queryChunk pagesOfDay at ih ⊢
    rw [List.filter_cons, List.filter_cons]
    cases hds : pg.dateStart with
    | none => simpa [hds] using ih
    | some dy =>
      by_cases hdd : dy = d
      · subst hdd
        simp [hds, h1, h2, List.filter_cons, ih]
      · by_cases hlo : lo ≤ dy <;> by_cases hhi : dy ≤ hi <;>
          simp [hds, hdd, hlo, hhi, List.filter_cons, ih]

theorem queryIndex_apply (store : List RawPage) {lo hi d : Int}
    (h1 : lo ≤ d) (h2 : d ≤ hi) :
    ((queryChunk store lo hi).foldl addPage emptyIndex) d =
      (pagesOfDay store d).map pageEntry := by
  rw [foldl_addPage_apply, pagesOfDay_queryChunk store h1 h2]
  rfl

theorem countDup_eq (pages : List SinkEntry) (st : RunState) :
    countDup pages st =
      { st with duplicateDates := st.duplicateDates + dupBump pages } := by
  unfold countDup dupBump
  split <;> simp

theorem updateLoop_ok (env : Env) (props : SleepProps) (ps : List SinkEntry)
    (st : RunState) (h : ∀ e ∈ ps, env.updateErr e.page_id props = none) :
    updateLoop env props ps st =
      { st with updated := st.updated + ps.length,
                writes := st.writes ++ ps.map fun e => WriteOp.update e.page_id props } := by
  induction ps generalizing st with
  | nil => simp [updateLoop]
  | cons p ps ih =>
    rw [updateLoop, h p (by simp)]
    rw [ih _ (fun e he => h e (by simp [he]))]
    dsimp only
    congr 1
    all_goals (first | (simp only [List.length_cons]; omega) | simp)

theorem updateLoop_firstFail (env : Env) (props : SleepProps)
    (good : List SinkEntry) (bad : SinkEntry) (rest : List SinkEntry)
    (st : RunState) (msg : String)
    (hgood : ∀ e ∈ good, env.updateErr e.page_id props = none)
    (hbad : env.updateErr bad.page_id props = some msg) :
    updateLoop env props (good ++ bad :: rest) st =
      { st with updated := st.updated + good.length,
                errors := st.errors + 1,
                writes := st.writes ++ good.map fun e => WriteOp.update e.page_id props } := by
  induction good generalizing st with
  | nil => simp [updateLoop, hbad]
  | cons p ps ih =>
    rw [List.cons_append, updateLoop, hgood p (by simp)]
    rw [ih _ (fun e he => hgood e (by simp [he]))]
    dsimp only
    congr 1
    all_goals (first | (simp only [List.length_cons]; omega) | simp)

theorem syncDay_valid (env : Env) (byDate : Int → List SinkEntry) (z : Bool)
    (st : RunState) (d : Int) (h : hasValidEntry (byDate d) = true) :
    syncDay env byDate z st d =
      { st with duplicateDates := st.duplicateDates + dupBump (byDate d),
                skipped := st.skipped + 1 } := by
  simp [syncDay, h, countDup_eq]

theorem syncDay_fetchErr (env : Env) (byDate : Int → List SinkEntry) (z : Bool)
    (st : RunState) (d : Int) (msg : String)
    (h : hasValidEntry (byDate d) = false) (hf : env.fetch d = .error msg) :
    syncDay env byDate z st d =
      { st with duplicateDates := st.duplicateDates + dupBump (byDate d),
                fetches := st.fetches ++ [d],
                errors := st.errors + 1 } := by
  simp [syncDay, h, hf, countDup_eq]

theorem syncDay_reject (env : Env) (byDate : Int → List SinkEntry) (z : Bool)
    (st : RunState) (d : Int) (sd : SleepData)
    (h : hasValidEntry (byDate d) = false) (hf : env.fetch d = .ok sd)
    (hb : buildSleepPropertiesForTargetDate sd d z = none) :
    syncDay env byDate z st d =
      { st with duplicateDates := st.duplicateDates + dupBump (byDate d),
                fetches := st.fetches ++ [d],
                skipped := st.skipped + 1 } := by
  simp [syncDay, h, hf, hb, countDup_eq]

theorem syncDay_create (env : Env) (byDate : Int → List SinkEntry) (z : Bool)
    (st : RunState) (d : Int) (sd : SleepData) (props : SleepProps)
    (hemp : byDate d = []) (hf : env.fetch d = .ok sd)
    (hb : buildSleepPropertiesForTargetDate sd d z = some props)
    (hc : env.createErr props = none) :
    syncDay env byDate z st d =
      { st with fetches := st.fetches ++ [d],
                created := st.created + 1,
                writes := st.writes ++ [WriteOp.create props] } := by
  have hvnil : hasValidEntry [] = false := rfl
  simp [syncDay, hf, hb, hc, hemp, hvnil, countDup_eq, dupBump]

theorem syncDay_createErr (env : Env) (byDate : Int → List SinkEntry) (z : Bool)
    (st : RunState) (d : Int) (sd : SleepData) (props : SleepProps) (msg : String)
    (hemp : byDate d = []) (hf : env.fetch d = .ok sd)
    (hb : buildSleepPropertiesForTargetDate sd d z = some props)
    (hc : env.createErr props = some msg) :
    syncDay env byDate z st d =
      { st with fetches := st.fetches ++ [d],
                errors := st.errors + 1 } := by
  have hvnil : hasValidEntry [] = false := rfl
  simp [syncDay, hf, hb, hc, hemp, hvnil, countDup_eq, dupBump]

theorem syncDay_update (env : Env) (byDate : Int → List SinkEntry) (z : Bool)
    (st : RunState) (d : Int) (sd : SleepData) (props : SleepProps)
    (h : hasValidEntry (byDate d) = false) (hne : byDate d ≠ [])
    (hf : env.fetch d = .ok sd)
    (hb : buildSleepPropertiesForTargetDate sd d z = some props) :
    syncDay env byDate z st d =
      updateLoop env props (byDate d)
        { st with duplicateDates := st.duplicateDates + dupBump (byDate d),
                  fetches := st.fetches ++ [d] } := by
  have hemp : (byDate d).isEmpty = false := by
    cases hx : byDate d with
    | nil => exact absurd hx hne
    | cons a l => rfl
  simp [syncDay, h, hf, hb, hemp, countDup_eq]

theorem build_dateStart {sd : SleepData} {d : Int} {z : Bool} {p : SleepProps}
    (h : buildSleepPropertiesForTargetDate sd d z = some p) : p.dateStart = d := by
  unfold buildSleepPropertiesForTargetDate at h
  cases hds : sd.dailySleepDTO with
  | none => simp [hds] at h
  | some ds =>
    simp only [hds] at h
    split at h
    · simp at h
    · split at h
      · simp at h
      · injection h with h
        rw [← h]

theorem updateLoop_writes (env : Env) (props : SleepProps) (ps : List SinkEntry)
    (st : RunState) :
    (updateLoop env props ps st).writes = st.writes ++ updateWritesList env props ps := by
  induction ps generalizing st with
  | nil => simp [updateLoop, updateWritesList]
  | cons p rest ih =>
    rw [updateLoop, updateWritesList]
    cases env.updateErr p.page_id props with
    | some e => simp
    | none => rw [ih]; simp

theorem updateWritesList_ok (env : Env) (props : SleepProps) (ps : List SinkEntry)
    (h : ∀ e ∈ ps, env.updateErr e.page_id props = none) :
    updateWritesList env props ps = ps.map fun e => WriteOp.update e.page_id props := by
  induction ps with
  | nil => rfl
  | cons p rest ih =>
    rw [updateWritesList, h p (by simp)]
    rw [ih (fun e he => h e (by simp [he]))]
    rfl

theorem syncDay_writes (env : Env) (byDate : Int → List SinkEntry) (z : Bool)
    (st : RunState) (d : Int) :
    (syncDay env byDate z st d).writes = st.writes ++ dayWrites env byDate z d := by
  by_cases hv : hasValidEntry (byDate d)
  · rw [syncDay_valid env byDate z st d hv]
    unfold dayWrites
    simp [hv]
  · have hv' : hasValidEntry (byDate d) = false := by simpa using hv
    cases hf : env.fetch d with
    | error e =>
      rw [syncDay_fetchErr env byDate z st d e hv' hf]
      unfold dayWrites
      simp [hv', hf]
    | ok sd =>
      cases hb : buildSleepPropertiesForTargetDate sd d z with
      | none =>
        rw [syncDay_reject env byDate z st d sd hv' hf hb]
        unfold dayWrites
        simp [hv', hf, hb]
      | some props =>
        by_cases he : byDate d = []
        · have hvnil : hasValidEntry [] = false := rfl
          cases hc : env.createErr props with
          | none =>
            rw [syncDay_create env byDate z st d sd props he hf hb hc]
            unfold dayWrites
            simp [hv', hf, hb, he, hc, hvnil]
          | some msg =>
            rw [syncDay_createErr env byDate z st d sd props msg he hf hb hc]
            unfold dayWrites
            simp [hv', hf, hb, he, hc, hvnil]
        · rw [syncDay_update env byDate z st d sd props hv' he hf hb]
          rw [updateLoop_writes]
          have hne : (byDate d).isEmpty = false := by
            cases hx : byDate d with
            | nil => exact absurd hx he
            | cons a l => rfl
          unfold dayWrites
          simp [hv', hf, hb, hne]

theorem runLoop_writes (env : Env) (byDate : Int → List SinkEntry) (z : Bool)
    (dates : List Int) (st : RunState) :
    (runLoop env byDate z dates st).writes =
      st.writes ++ (dates.map (dayWrites env byDate z)).flatten := by
  induction dates generalizing st with
  | nil => simp [runLoop]
  | cons d rest ih =>
    rw [runLoop, List.foldl_cons]
    rw [show List.foldl (syncDay env byDate z) (syncDay env byDate z st d) rest =
      runLoop env byDate z rest (syncDay env byDate z st d) from rfl]
    rw [ih, syncDay_writes]
    simp

theorem syncDay_errors_ok (env : Env) (henv : env.ErrorFree)
    (byDate : Int → List SinkEntry) (z : Bool) (st : RunState) (d : Int) :
    (syncDay env byDate z st d).errors = st.errors := by
  obtain ⟨hf, hc, hu⟩ := henv
  by_cases hv : hasValidEntry (byDate d)
  · rw [syncDay_valid env byDate z st d hv]
  · have hv' : hasValidEntry (byDate d) = false := by simpa using hv
    obtain ⟨sd, hsd⟩ := hf d
    cases hb : buildSleepPropertiesForTargetDate sd d z with
    | none => rw [syncDay_reject env byDate z st d sd hv' hsd hb]
    | some props =>
      by_cases he : byDate d = []
      · rw [syncDay_create env byDate z st d sd props he hsd hb (hc props)]
      · rw [syncDay_update env byDate z st d sd props hv' he hsd hb]
        rw [updateLoop_ok env props _ _ (fun e _ => hu e.page_id props)]

theorem runLoop_errors_ok (env : Env) (henv : env.ErrorFree)
    (byDate : Int → List SinkEntry) (z : Bool) (dates : List Int) (st : RunState) :
    (runLoop env byDate z dates st).errors = st.errors := by
  induction dates generalizing st with
  | nil => rfl
  | cons d rest ih =>
    rw [runLoop, List.foldl_cons]
    rw [show List.foldl (syncDay env byDate z) (syncDay env byDate z st d) rest =
      runLoop env byDate z rest (syncDay env byDate z st d) from rfl]
    rw [ih, syncDay_errors_ok env henv]

theorem skipOnly_of_valid (env : Env) (byDate : Int → List SinkEntry) (z : Bool)
    (d : Int) (h : hasValidEntry (byDate d) = true) : SkipOnly env byDate z d := by
  intro st
  rw [syncDay_valid env byDate z st d h]
  exact ⟨rfl, rfl, rfl, rfl, rfl⟩

theorem skipOnly_of_reject (env : Env) (byDate : Int → List SinkEntry) (z : Bool)
    (d : Int) (sd : SleepData) (h : hasValidEntry (byDate d) = false)
    (hf : env.fetch d = .ok sd)
    (hb : buildSleepPropertiesForTargetDate sd d z = none) :
    SkipOnly env byDate z d := by
  intro st
  rw [syncDay_reject env byDate z st d sd h hf hb]
  exact ⟨rfl, rfl, rfl, rfl, rfl⟩

theorem runLoop_skipOnly (env : Env) (byDate : Int → List SinkEntry) (z : Bool)
    (dates : List Int) (st : RunState)
    (h : ∀ d ∈ dates, SkipOnly env byDate z d) :
    (runLoop env byDate z dates st).writes = st.writes ∧
    (runLoop env byDate z dates st).created = st.created ∧
    (runLoop env byDate z dates st).updated = st.updated ∧
    (runLoop env byDate z dates st).errors = st.errors ∧
    (runLoop env byDate z dates st).skipped = st.skipped + dates.length := by
  induction dates generalizing st with
  | nil => exact ⟨rfl, rfl, rfl, rfl, rfl⟩
  | cons d rest ih =>
    rw [runLoop, List.foldl_cons]
    rw [show List.foldl (syncDay env byDate z) (syncDay env byDate z st d) rest =
      runLoop env byDate z rest (syncDay env byDate z st d) from rfl]
    obtain ⟨w, c, u, e, s⟩ := h d (by simp) st
    obtain ⟨w2, c2, u2, e2, s2⟩ := ih (syncDay env byDate z st d)
      (fun d' hd' => h d' (by simp [hd']))
    refine ⟨by rw [w2, w], by rw [c2, c], by rw [u2, u], by rw [e2, e], ?_⟩
    rw [s2, s]
    simp [List.length_cons]
    omega

theorem applyWrite_update (s : List RawPage) (nid : Nat) (pid : Nat)
    (props : SleepProps) :
    applyWrite (s, nid) (.update pid props) = (s.map (updIf pid props), nid) := rfl

theorem applyWrite_create (s : List RawPage) (nid : Nat) (props : SleepProps) :
    applyWrite (s, nid) (.create props) =
      (s ++ [{ pageId := nid, dateStart := some props.dateStart,
               restingHRNum := some props.restingHR }], nid + 1) := rfl

theorem applyWritesP_append (p : List RawPage × Nat) (ws1 ws2 : List WriteOp) :
    applyWritesP p (ws1 ++ ws2) = applyWritesP (applyWritesP p ws1) ws2 := by
  simp [applyWritesP, List.foldl_append]

theorem bigUpd_pageId (props : SleepProps) (ids : List Nat) (pg : RawPage) :
    (bigUpd props ids pg).pageId = pg.pageId := by
  unfold bigUpd
  split <;> rfl

theorem bigUpd_nil (props : SleepProps) (pg : RawPage) :
    bigUpd props [] pg = pg := by
  simp [bigUpd]

theorem bigUpd_updIf (props : SleepProps) (pid : Nat) (ids : List Nat)
    (pg : RawPage) :
    bigUpd props ids (updIf pid props pg) = bigUpd props (pid :: ids) pg := by
  unfold bigUpd updIf setProps
  by_cases h : pg.pageId = pid
  · by_cases h2 : pid ∈ ids <;> simp [h, h2]
  · by_cases h2 : pg.pageId ∈ ids <;> simp [h, h2]

theorem applyWritesP_updates (es : List SinkEntry) (props : SleepProps)
    (s : List RawPage) (nid : Nat) :
    applyWritesP (s, nid) (es.map fun e => WriteOp.update e.page_id props) =
      (s.map (bigUpd props (es.map SinkEntry.page_id)), nid) := by
  induction es generalizing s with
  | nil =>
    have hmap : s.map (bigUpd props []) = s.map id :=
      List.map_congr_left fun pg _ => bigUpd_nil props pg
    simp [applyWritesP, hmap]
  | cons e es ih =>
    simp only [List.map_cons]
    rw [show applyWritesP (s, nid)
        (WriteOp.update e.page_id props :: es.map fun e => WriteOp.update e.page_id props) =
      applyWritesP (applyWrite (s, nid) (.update e.page_id props))
        (es.map fun e => WriteOp.update e.page_id props) from rfl]
    rw [applyWrite_update, ih]
    rw [List.map_map]
    refine congrArg (fun l => (l, nid)) ?_
    exact List.map_congr_left fun pg _ => bigUpd_updIf props e.page_id _ pg

theorem mem_pagesOfDay {pg : RawPage} {s : List RawPage} {d : Int} :
    pg ∈ pagesOfDay s d ↔ pg ∈ s ∧ pg.dateStart = some d := by
  simp [pagesOfDay, List.mem_filter]

theorem pagesOfDay_append (s t : List RawPage) (d : Int) :
    pagesOfDay (s ++ t) d = pagesOfDay s d ++ pagesOfDay t d := by
  simp [pagesOfDay, List.filter_append]

theorem pagesOfDay_map_bigUpd_ne (props : SleepProps) (ids : List Nat)
    (s : List RawPage) {d : Int} (hd : props.dateStart ≠ d)
    (h : ∀ pg ∈ s, pg.pageId ∈ ids → pg.dateStart ≠ some d) :
    pagesOfDay (s.map (bigUpd props ids)) d = pagesOfDay s d := by
  induction s with
  | nil => rfl
  | cons pg s ih =>
    have hh : ∀ p ∈ s, p.pageId ∈ ids → p.dateStart ≠ some d :=
      fun p hp => h p (by simp [hp])
    rw [List.map_cons]
    by_cases hmem : pg.pageId ∈ ids
    · have h1 : bigUpd props ids pg = setProps props pg := by simp [bigUpd, hmem]
      have h2 : (setProps props pg).dateStart = some props.dateStart := rfl
      have h3 : pg.dateStart ≠ some d := h pg (by simp) hmem
      unfold pagesOfDay
      rw [List.filter_cons, List.filter_cons]
      have c1 : (decide ((bigUpd props ids pg).dateStart = some d)) = false := by
        simp [h1, h2, hd]
      have c2 : (decide (pg.dateStart = some d)) = false := by simp [h3]
      rw [c1, c2]
      exact ih hh
    · have h1 : bigUpd props ids pg = pg := by simp [bigUpd, hmem]
      unfold pagesOfDay
      rw [List.filter_cons, List.filter_cons, h1]
      cases hc : decide (pg.dateStart = some d)
      · exact ih hh
      · rw [if_pos rfl, if_pos rfl]
        exact congrArg (List.cons pg) (ih hh)

theorem pagesOfDay_map_bigUpd_eq (props : SleepProps) (ids : List Nat)
    (s : List RawPage) {d : Int} (hd : props.dateStart = d)
    (h : ∀ pg ∈ s, (pg.pageId ∈ ids ↔ pg.dateStart = some d)) :
    pagesOfDay (s.map (bigUpd props ids)) d =
      (pagesOfDay s d).map (setProps props) := by
  induction s with
  | nil => rfl
  | cons pg s ih =>
    have hh : ∀ p ∈ s, (p.pageId ∈ ids ↔ p.dateStart = some d) :=
      fun p hp => h p (by simp [hp])
    rw [List.map_cons]
    by_cases hds : pg.dateStart = some d
    · have hmem : pg.pageId ∈ ids := (h pg (by simp)).mpr hds
      have h1 : bigUpd props ids pg = setProps props pg := by simp [bigUpd, hmem]
      unfold pagesOfDay
      rw [List.filter_cons, List.filter_cons]
      have c1 : (decide ((bigUpd props ids pg).dateStart = some d)) = true := by
        simp [h1, setProps, hd]
      have c2 : (decide (pg.dateStart = some d)) = true := by simp [hds]
      rw [c1, c2, if_pos rfl, if_pos rfl, List.map_cons, h1]
      exact congrArg (List.cons (setProps props pg)) (ih hh)
    · have hmem : pg.pageId ∉ ids := fun hc => hds ((h pg (by simp)).mp hc)
      have h1 : bigUpd props ids pg = pg := by simp [bigUpd, hmem]
      unfold pagesOfDay
      rw [List.filter_cons, List.filter_cons, h1]
      have c2 : (decide (pg.dateStart = some d)) = false := by simp [hds]
      rw [c2]
      exact ih hh

theorem hasValidEntry_map_iff (ps : List RawPage) :
    hasValidEntry (ps.map pageEntry) = true ↔
      ∃ pg ∈ ps, 0 < pg.restingHRNum.getD 0 := by
  unfold hasValidEntry
  constructor
  · intro h
    rw [Bool.and_eq_true, List.any_eq_true] at h
    obtain ⟨-, e, he, hlt⟩ := h
    rcases List.mem_map.mp he with ⟨pg, hpg, rfl⟩
    exact ⟨pg, hpg, by simpa [pageEntry] using hlt⟩
  · rintro ⟨pg, hm, hd⟩
    rw [Bool.and_eq_true, List.any_eq_true]
    have hne : ps.map pageEntry ≠ [] :=
      List.ne_nil_of_mem (List.mem_map_of_mem pageEntry hm)
    exact ⟨by simp [List.isEmpty_iff, hne],
      pageEntry pg, List.mem_map_of_mem pageEntry hm,
      by simpa [pageEntry] using hd⟩

theorem applyDayWrites_good
    (env : Env) (store : List RawPage) (z : Bool) (byDate : Int → List SinkEntry)
    (henv : env.ErrorFree) :
    ∀ (ds : List Int) (cur : List RawPage) (nid : Nat),
      ds.Nodup →
      (∀ d ∈ ds, byDate d = (pagesOfDay store d).map pageEntry) →
      (∀ d ∈ ds, ∀ sd props, env.fetch d = .ok sd →
          buildSleepPropertiesForTargetDate sd d z = some props →
          0 < props.restingHR) →
      (∀ d ∈ ds, pagesOfDay cur d = pagesOfDay store d) →
      (∀ pg ∈ cur, pg.pageId < nid) →
      (cur.map RawPage.pageId).Nodup →
      (∀ d, d ∉ ds →
          pagesOfDay (applyWritesP (cur, nid)
            ((ds.map (dayWrites env byDate z)).flatten)).1 d = pagesOfDay cur d) ∧
      (∀ d ∈ ds, GoodDay env store z
          (applyWritesP (cur, nid) ((ds.map (dayWrites env byDate z)).flatten)).1 d) := by
  intro ds
  induction ds with
  | nil =>
    intro cur nid _ _ _ _ _ _
    exact ⟨fun d _ => rfl, fun d hd => absurd hd (List.not_mem_nil d)⟩
  | cons d0 ds ih =>
    intro cur nid hnd hidx hrhr hagree hbound hnodup
    obtain ⟨hf, hc, hu⟩ := henv
    have hd0ds : d0 ∉ ds := (List.nodup_cons.mp hnd).1
    have hndds : ds.Nodup := (List.nodup_cons.mp hnd).2
    have hidx0 : byDate d0 = (pagesOfDay store d0).map pageEntry := hidx d0 (by simp)
    have hagree0 : pagesOfDay cur d0 = pagesOfDay store d0 := hagree d0 (by simp)
    have hidx' : ∀ d ∈ ds, byDate d = (pagesOfDay store d).map pageEntry :=
      fun d hd => hidx d (by simp [hd])
    have hrhr' : ∀ d ∈ ds, ∀ sd props, env.fetch d = .ok sd →
        buildSleepPropertiesForTargetDate sd d z = some props →
        0 < props.restingHR :=
      fun d hd => hrhr d (by simp [hd])
    obtain ⟨sd, hsd⟩ := hf d0
    rw [List.map_cons, List.flatten_cons]
    by_cases hv : hasValidEntry (byDate d0)
    · -- the day is skipped: nothing written
      have hday : dayWrites env byDate z d0 = [] := by
        unfold dayWrites
        simp [hv]
      rw [hday, List.nil_append]
      obtain ⟨IH1, IH2⟩ := ih cur nid hndds hidx'
        hrhr' (fun d hd => hagree d (by simp [hd])) hbound hnodup
      refine ⟨fun d hd => IH1 d (fun hc2 => hd (by simp [hc2])), ?_⟩
      intro d hd
      rcases List.mem_cons.mp hd with rfl | hd'
      · left
        unfold validDay
        rw [IH1 d hd0ds, hagree0]
        exact (hasValidEntry_map_iff _).mp (hidx0 ▸ hv)
      · exact IH2 d hd'
    · have hv' : hasValidEntry (byDate d0) = false := by simpa using hv
      have hnoval : ∀ pg ∈ pagesOfDay store d0, ¬ 0 < pg.restingHRNum.getD 0 := by
        intro pg hpg hlt
        exact hv (hidx0 ▸ (hasValidEntry_map_iff _).mpr ⟨pg, hpg, hlt⟩)
      cases hb : buildSleepPropertiesForTargetDate sd d0 z with
      | none =>
        -- normalizer reject: nothing written
        have hday : dayWrites env byDate z d0 = [] := by
          unfold dayWrites
          simp [hv', hsd, hb]
        rw [hday, List.nil_append]
        obtain ⟨IH1, IH2⟩ := ih cur nid hndds hidx'
          hrhr' (fun d hd => hagree d (by simp [hd])) hbound hnodup
        refine ⟨fun d hd => IH1 d (fun hc2 => hd (by simp [hc2])), ?_⟩
        intro d hd
        rcases List.mem_cons.mp hd with rfl | hd'
        · right
          rw [IH1 d hd0ds, hagree0]
          exact ⟨rfl, hnoval, sd, hsd, hb⟩
        · exact IH2 d hd'
      | some props =>
        have hds0 : props.dateStart = d0 := build_dateStart hb
        have hhr : 0 < props.restingHR := hrhr d0 (by simp) sd props hsd hb
        by_cases hemp : byDate d0 = []
        · -- CREATE: one page appended, carrying day d0 and a positive signal
          have hday : dayWrites env byDate z d0 = [WriteOp.create props] := by
            have hvnil : hasValidEntry [] = false := rfl
            unfold dayWrites
            simp [hv', hsd, hb, hemp, hc props, hvnil]
          have hstore0 : pagesOfDay store d0 = [] := by
            rw [hidx0] at hemp
            exact List.map_eq_nil_iff.mp hemp
          rw [hday]
          rw [show applyWritesP (cur, nid)
              ([WriteOp.create props] ++ (ds.map (dayWrites env byDate z)).flatten) =
            applyWritesP (applyWrite (cur, nid) (.create props))
              ((ds.map (dayWrites env byDate z)).flatten) from rfl]
          rw [applyWrite_create]
          set newpg : RawPage :=
            { pageId := nid, dateStart := some props.dateStart,
              restingHRNum := some props.restingHR } with hnew
          have hpgsingle : ∀ d : Int, d ≠ d0 → pagesOfDay [newpg] d = [] := by
            intro d hd
            unfold pagesOfDay
            rw [List.filter_cons]
            have : (decide (newpg.dateStart = some d)) = false := by
              simp [hnew, hds0, hd, Ne.symm hd]
            rw [this]
            rfl
          have hpgsingle0 : pagesOfDay [newpg] d0 = [newpg] := by
            unfold pagesOfDay
            rw [List.filter_cons]
            have : (decide (newpg.dateStart = some d0)) = true := by
              simp [hnew, hds0]
            rw [this]
            rfl
          have hagree' : ∀ d ∈ ds, pagesOfDay (cur ++ [newpg]) d = pagesOfDay store d := by
            intro d hd
            rw [pagesOfDay_append, hpgsingle d (fun hdd => hd0ds (hdd ▸ hd)),
              List.append_nil]
            exact hagree d (by simp [hd])
          have hbound' : ∀ pg ∈ cur ++ [newpg], pg.pageId < nid + 1 := by
            intro pg hpg
            rcases List.mem_append.mp hpg with hpg | hpg
            · exact Nat.lt_succ_of_lt (hbound pg hpg)
            · rcases List.mem_singleton.mp hpg with rfl
              exact Nat.lt_succ_self nid
          have hnodup' : ((cur ++ [newpg]).map RawPage.pageId).Nodup := by
            rw [List.map_append]
            refine List.Nodup.append hnodup (by simp) ?_
            intro a ha hb2
            rcases List.mem_map.mp ha with ⟨pg, hpg, rfl⟩
            have := hbound pg hpg
            simp only [List.map_cons, List.map_nil, List.mem_singleton] at hb2
            omega
          obtain ⟨IH1, IH2⟩ := ih (cur ++ [newpg]) (nid + 1) hndds hidx'
            hrhr' hagree' hbound' hnodup'
          constructor
          · intro d hd
            have hdds : d ∉ ds := fun hc2 => hd (by simp [hc2])
            have hdd0 : d ≠ d0 := fun hc2 => hd (by simp [hc2])
            rw [IH1 d hdds, pagesOfDay_append, hpgsingle d hdd0, List.append_nil]
          · intro d hd
            rcases List.mem_cons.mp hd with rfl | hd'
            · left
              unfold validDay
              rw [IH1 d hd0ds, pagesOfDay_append, hpgsingle0, hagree0, hstore0,
                List.nil_append]
              exact ⟨newpg, by simp, by simp [hnew, hhr]⟩
            · exact IH2 d hd'
        · -- UPDATE: every page of day d0 is overwritten with props
          have hday : dayWrites env byDate z d0 =
              (byDate d0).map fun e => WriteOp.update e.page_id props := by
            unfold dayWrites
            have hne : (byDate d0).isEmpty = false := by
              cases hx : byDate d0 with
              | nil => exact absurd hx hemp
              | cons a l => rfl
            simp [hv', hsd, hb, hne]
            exact updateWritesList_ok env props _ (fun e _ => hu e.page_id props)
          have hids : (byDate d0).map SinkEntry.page_id =
              (pagesOfDay store d0).map RawPage.pageId := by
            rw [hidx0, List.map_map]
            rfl
          have hKW : ∀ pg ∈ cur,
              (pg.pageId ∈ (byDate d0).map SinkEntry.page_id ↔
                pg.dateStart = some d0) := by
            intro pg hpg
            rw [hids]
            constructor
            · intro hmem
              rcases List.mem_map.mp hmem with ⟨pg', hpg', hid⟩
              rw [← hagree0] at hpg'
              have hpg'cur : pg' ∈ cur := (mem_pagesOfDay.mp hpg').1
              have : pg = pg' :=
                List.inj_on_of_nodup_map hnodup hpg hpg'cur hid.symm
              rw [this]
              exact (mem_pagesOfDay.mp hpg').2
            · intro hds
              have : pg ∈ pagesOfDay store d0 := by
                rw [← hagree0]
                exact mem_pagesOfDay.mpr ⟨hpg, hds⟩
              exact List.mem_map.mpr ⟨pg, this, rfl⟩
          rw [hday]
          rw [applyWritesP_append]
          rw [applyWritesP_updates]
          set cur' := cur.map (bigUpd props ((byDate d0).map SinkEntry.page_id))
            with hcur'
          have hagree' : ∀ d ∈ ds, pagesOfDay cur' d = pagesOfDay store d := by
            intro d hd
            have hdd0 : d ≠ d0 := fun hc2 => hd0ds (hc2 ▸ hd)
            rw [hcur', pagesOfDay_map_bigUpd_ne props _ cur
              (by rw [hds0]; exact fun a => hdd0 a.symm) ?_]
            · exact hagree d (by simp [hd])
            · intro pg hpg hmem
              rw [(hKW pg hpg).mp hmem]
              intro hc2
              exact hdd0 (Option.some.inj hc2).symm
          have hbound' : ∀ pg ∈ cur', pg.pageId < nid := by
            intro pg hpg
            rcases List.mem_map.mp hpg with ⟨pg0, hpg0, rfl⟩
            rw [bigUpd_pageId]
            exact hbound pg0 hpg0
          have hmapid : cur'.map RawPage.pageId = cur.map RawPage.pageId := by
            rw [hcur', List.map_map]
            exact List.map_congr_left fun pg _ => bigUpd_pageId props _ pg
          have hnodup' : (cur'.map RawPage.pageId).Nodup := by
            rw [hmapid]
            exact hnodup
          obtain ⟨IH1, IH2⟩ := ih cur' nid hndds hidx' hrhr' hagree' hbound' hnodup'
          constructor
          · intro d hd
            have hdds : d ∉ ds := fun hc2 => hd (by simp [hc2])
            have hdd0 : d ≠ d0 := fun hc2 => hd (by simp [hc2])
            rw [IH1 d hdds, hcur', pagesOfDay_map_bigUpd_ne props _ cur
              (by rw [hds0]; exact fun a => hdd0 a.symm) ?_]
            intro pg hpg hmem
            rw [(hKW pg hpg).mp hmem]
            intro hc2
            exact hdd0 (Option.some.inj hc2).symm
          · intro d hd
            rcases List.mem_cons.mp hd with rfl | hd'
            · left
              unfold validDay
              rw [IH1 d hd0ds, hcur',
                pagesOfDay_map_bigUpd_eq props _ cur hds0 hKW, hagree0]
              have hstorene : pagesOfDay store d ≠ [] := by
                intro hc2
                rw [hidx0, hc2] at hemp
                exact hemp rfl
              cases hx : pagesOfDay store d with
              | nil => exact absurd hx hstorene
              | cons pg0 rest =>
                refine ⟨setProps props pg0, by simp, ?_⟩
                simp [setProps, hhr]
            · exact IH2 d hd'

theorem foldl_max_le_init (l : List Nat) (i : Nat) : i ≤ l.foldl max i := by
  induction l generalizing i with
  | nil => exact le_refl i
  | cons x l ih => exact le_trans (Nat.le_max_left i x) (ih (max i x))

theorem mem_le_foldl_max (l : List Nat) (i : Nat) (a : Nat) (h : a ∈ l) :
    a ≤ l.foldl max i := by
  induction l generalizing i with
  | nil => cases h
  | cons x l ih =>
    rcases List.mem_cons.mp h with rfl | h'
    · exact le_trans (Nat.le_max_right i a) (foldl_max_le_init l (max i a))
    · exact ih (max i x) h'

theorem freshId_gt (store : List RawPage) :
    ∀ pg ∈ store, pg.pageId < freshId store := by
  intro pg hpg
  have : pg.pageId ≤ (store.map RawPage.pageId).foldl max 0 :=
    mem_le_foldl_max _ 0 _ (List.mem_map_of_mem _ hpg)
  unfold freshId
  omega

theorem runOnStore_eq (env : Env) (store : List RawPage) (today : Int)
    (n : Nat) (z : Bool) :
    runOnStore env store today n z =
      .ok (runLoop env
        ((queryChunk store (startDayOf today n) today).foldl addPage emptyIndex)
        z (windowDates today n) initState) := rfl

theorem build_restingHR {sd : SleepData} {ds : DailySleep} {d : Int} {z : Bool}
    {p : SleepProps} (hds : sd.dailySleepDTO = some ds)
    (h : buildSleepPropertiesForTargetDate sd d z = some p) :
    p.restingHR = (sd.restingHeartRate.orElse fun _ => ds.restingHeartRate).getD 0 := by
  unfold buildSleepPropertiesForTargetDate at h
  simp only [hds] at h
  split at h
  · simp at h
  · split at h
    · simp at h
    · injection h with h
      rw [← h]

/-- The central idempotence analysis: after an error-free run in which every
normalized payload carries a positive resting heart rate, every window date
of the written store is either valid or normalizer-rejected. -/
theorem run_good_days (env : Env) (store : List RawPage) (today : Int)
    (n : Nat) (z : Bool) (henv : env.ErrorFree)
    (hnodup : (store.map RawPage.pageId).Nodup)
    (hrhr : ∀ d ∈ windowDates today n, ∀ sd props, env.fetch d = .ok sd →
        buildSleepPropertiesForTargetDate sd d z = some props →
        0 < props.restingHR) :
    ∀ d ∈ windowDates today n,
      GoodDay env store z (storeAfter env store today n z) d := by
  set startD := startDayOf today n with hstartD
  set dates := windowDates today n with hdates
  set byDate : Int → List SinkEntry :=
    (queryChunk store startD today).foldl addPage emptyIndex with hbyDate
  have hidx : ∀ d ∈ dates, byDate d = (pagesOfDay store d).map pageEntry := by
    intro d hd
    obtain ⟨h1, h2⟩ := mem_windowDates.mp (hdates ▸ hd)
    exact queryIndex_apply store h1 h2
  have hrhr2 : ∀ d ∈ dates, ∀ sd props, env.fetch d = .ok sd →
      buildSleepPropertiesForTargetDate sd d z = some props →
      0 < props.restingHR := hrhr
  obtain ⟨-, good⟩ := applyDayWrites_good env store z byDate henv dates store
    (freshId store) (windowDates_nodup today n) hidx hrhr2
    (fun d _ => rfl) (freshId_gt store) hnodup
  intro d hd
  have hafter : storeAfter env store today n z =
      (applyWritesP (store, freshId store)
        ((dates.map (dayWrites env byDate z)).flatten)).1 := by
    have hw : (runLoop env byDate z dates initState).writes =
        (dates.map (dayWrites env byDate z)).flatten := by
      rw [runLoop_writes]
      rfl
    show applyWrites store (freshId store)
        (runLoop env byDate z dates initState).writes = _
    rw [hw]
    rfl
  rw [hafter]
  exact good d hd

/-- C1 (amended): idempotence holds under one extra condition forced by the
validity signal — if the first run is error-free and every payload it
normalizes carries a positive resting heart rate, then the first run ends
with zero errors and a second run over the same window and upstream fixture
classifies every window date as SKIPPED (valid entry found, or normalizer
reject) and performs zero create and zero update writes.  The
resting-heart-rate condition is forced: a normalized payload stored with
resting heart rate 0 is re-fetched and re-written on every later run. -/
theorem sleep_sync_second_run_skips (env : Env) (store : List RawPage)
    (today : Int) (n : Nat) (z : Bool) (henv : env.ErrorFree)
    (hnodup : (store.map RawPage.pageId).Nodup)
    (hrhr : ∀ d ∈ windowDates today n, ∀ sd props, env.fetch d = .ok sd →
        buildSleepPropertiesForTargetDate sd d z = some props →
        0 < props.restingHR) :
    (runOnStore env store today n z).map RunState.errors = .ok 0 ∧
    (runOnStore env (storeAfter env store today n z) today n z).map
        (fun st => (st.created, st.updated, st.skipped, st.writes)) =
      .ok (0, 0, n, ([] : List WriteOp)) := by
  set S := storeAfter env store today n z with hS
  set dates := windowDates today n with hdates
  set byDate1 : Int → List SinkEntry :=
    (queryChunk store (startDayOf today n) today).foldl addPage emptyIndex
    with hbyDate1
  set byDate2 : Int → List SinkEntry :=
    (queryChunk S (startDayOf today n) today).foldl addPage emptyIndex
    with hbyDate2
  constructor
  · show Except.map RunState.errors
        (.ok (runLoop env byDate1 z dates initState)) = .ok 0
    simp only [Except.map]
    rw [runLoop_errors_ok env henv]
    rfl
  · have hidx2 : ∀ d ∈ dates, byDate2 d = (pagesOfDay S d).map pageEntry := by
      intro d hd
      obtain ⟨h1, h2⟩ := mem_windowDates.mp (hdates ▸ hd)
      exact queryIndex_apply S h1 h2
    have good := run_good_days env store today n z henv hnodup hrhr
    have hskip : ∀ d ∈ dates, SkipOnly env byDate2 z d := by
      intro d hd
      rcases good d (hdates ▸ hd) with hvalid | ⟨hsame, hnoval, sd, hfd, hbnone⟩
      · obtain ⟨pg, hpg, hlt⟩ := hvalid
        refine skipOnly_of_valid env byDate2 z d ?_
        rw [hidx2 d hd]
        exact (hasValidEntry_map_iff _).mpr ⟨pg, hpg, hlt⟩
      · refine skipOnly_of_reject env byDate2 z d sd ?_ hfd hbnone
        rw [hidx2 d hd]
        rw [show pagesOfDay S d = pagesOfDay store d from hsame]
        rw [Bool.eq_false_iff]
        intro hcontra
        obtain ⟨pg, hpg, hlt⟩ := (hasValidEntry_map_iff _).mp hcontra
        exact hnoval pg hpg hlt
    show Except.map (fun st => (st.created, st.updated, st.skipped, st.writes))
        (.ok (runLoop env byDate2 z dates initState)) =
      .ok (0, 0, n, ([] : List WriteOp))
    simp only [Except.map, Except.ok.injEq, Prod.mk.injEq]
    obtain ⟨w2, c2, u2, e2, s2⟩ :=
      runLoop_skipOnly env byDate2 z dates initState hskip
    refine ⟨by rw [c2]; rfl, by rw [u2]; rfl, ?_, by rw [w2]; rfl⟩
    rw [s2, hdates, windowDates_length]
    exact Nat.zero_add n

theorem hasValidEntry_true_of {ps : List SinkEntry} (hne : ps ≠ [])
    (h : ∃ e ∈ ps, 0 < e.resting_hr) : hasValidEntry ps = true := by
  unfold hasValidEntry
  rw [Bool.and_eq_true]
  obtain ⟨e, he, hlt⟩ := h
  exact ⟨by simp [List.isEmpty_iff, hne],
    List.any_eq_true.mpr ⟨e, he, by simpa using hlt⟩⟩

theorem hasValidEntry_false_of {ps : List SinkEntry}
    (h : ∀ e ∈ ps, ¬ 0 < e.resting_hr) : hasValidEntry ps = false := by
  unfold hasValidEntry
  cases hx : ps.any fun p => decide (0 < p.resting_hr) with
  | false => simp [hx]
  | true =>
    exfalso
    obtain ⟨e, he, hlt⟩ := List.any_eq_true.mp hx
    exact h e he (by simpa using hlt)

theorem createDailySteps_date {s : StepsPayload} {z : Bool} {p : StepsProps}
    (h : createDailySteps s z = some p) : p.dateStart = s.calendarDate := by
  unfold createDailySteps at h
  dsimp only at h
  split at h
  · simp at h
  · injection h with h
    rw [← h]

theorem mem_stepsDates {today d : Int} :
    d ∈ stepsDates today ↔ today - 365 ≤ d ∧ d < today := by
  unfold stepsDates
  rw [List.mem_map]
  constructor
  · rintro ⟨i, hi, rfl⟩
    rw [List.mem_range] at hi
    have : (i : Int) < (365 : Int) := by exact_mod_cast hi
    omega
  · rintro ⟨h1, h2⟩
    refine ⟨(d - (today - 365)).toNat, List.mem_range.mpr ?_, ?_⟩
    · omega
    · omega

theorem foldl_addPage_flatten (pss : List (List RawPage))
    (idx : Int → List SinkEntry) :
    pss.foldl (fun a ps => ps.foldl addPage a) idx =
      pss.flatten.foldl addPage idx := by
  induction pss generalizing idx with
  | nil => rfl
  | cons ps pss ih => simp [List.foldl_append, ih]

theorem pyGetNum_of_noNull {f : Option (Option ℚ)} (h : f ≠ some none) :
    ∃ v, pyGetNum f = some v := by
  cases f with
  | none => exact ⟨0, rfl⟩
  | some o =>
    cases o with
    | none => exact absurd rfl h
    | some v => exact ⟨v, rfl⟩

theorem formatPace_some_isOk (v : ℚ) : ∃ s, formatPace (some v) = .ok s := by
  simp only [formatPace]
  split
  · exact ⟨_, rfl⟩
  · exact ⟨_, rfl⟩

/-- C3: a date with at least one existing sink entry whose validity signal
(resting heart rate) is positive is classified SKIPPED: the skip counter is
bumped and no Garmin fetch and no destination write happens for it, even if
other entries of the same date have a false validity signal. -/
theorem valid_entry_skips_without_fetch (env : Env)
    (byDate : Int → List SinkEntry) (z : Bool) (st : RunState) (d : Int)
    (hne : byDate d ≠ []) (hvalid : ∃ e ∈ byDate d, 0 < e.resting_hr) :
    (syncDay env byDate z st d).skipped = st.skipped + 1 ∧
    (syncDay env byDate z st d).fetches = st.fetches ∧
    (syncDay env byDate z st d).writes = st.writes ∧
    (syncDay env byDate z st d).created = st.created ∧
    (syncDay env byDate z st d).updated = st.updated ∧
    (syncDay env byDate z st d).errors = st.errors := by
  rw [syncDay_valid env byDate z st d (hasValidEntry_true_of hne hvalid)]
  exact ⟨rfl, rfl, rfl, rfl, rfl, rfl⟩

/-- Witness for C3 at a date holding one invalid and one valid entry. -/
theorem valid_entry_skips_without_fetch_witness :
    (syncDay envValid byDateMixed true initState 0).skipped = initState.skipped + 1 ∧
    (syncDay envValid byDateMixed true initState 0).fetches = initState.fetches ∧
    (syncDay envValid byDateMixed true initState 0).writes = initState.writes ∧
    (syncDay envValid byDateMixed true initState 0).created = initState.created ∧
    (syncDay envValid byDateMixed true initState 0).updated = initState.updated ∧
    (syncDay envValid byDateMixed true initState 0).errors = initState.errors :=
  valid_entry_skips_without_fetch envValid byDateMixed true initState 0
    (by decide) ⟨⟨2, 70⟩, by decide, by decide⟩

/-- C4: duplicate repair — on a date whose sink entries all carry a false
validity signal, with a fetched payload that normalizes and update calls
that succeed, the step issues exactly one UPDATE write per existing sink
entry, all carrying the identical normalized property set, and counts one
update per entry. -/
theorem duplicate_repair_updates_all (env : Env) (byDate : Int → List SinkEntry)
    (z : Bool) (st : RunState) (d : Int) (sd : SleepData) (props : SleepProps)
    (hne : byDate d ≠ []) (hinv : ∀ e ∈ byDate d, ¬ 0 < e.resting_hr)
    (hf : env.fetch d = .ok sd)
    (hb : buildSleepPropertiesForTargetDate sd d z = some props)
    (hupd : ∀ e ∈ byDate d, env.updateErr e.page_id props = none) :
    (syncDay env byDate z st d).writes =
      st.writes ++ (byDate d).map (fun e => WriteOp.update e.page_id props) ∧
    (syncDay env byDate z st d).updated = st.updated + (byDate d).length := by
  rw [syncDay_update env byDate z st d sd props (hasValidEntry_false_of hinv) hne hf hb]
  rw [updateLoop_ok env props _ _ hupd]
  exact ⟨rfl, rfl⟩

/-- Witness for C4: two duplicate invalid entries both receive an update
carrying the same property set. -/
theorem duplicate_repair_updates_all_witness :
    ∃ props, buildSleepPropertiesForTargetDate sdValid 0 true = some props ∧
      (syncDay envValid byDateDup true initState 0).writes =
        initState.writes ++
          (byDateDup 0).map (fun e => WriteOp.update e.page_id props) ∧
      (syncDay envValid byDateDup true initState 0).updated =
        initState.updated + (byDateDup 0).length := by
  obtain ⟨props, hb⟩ :
      ∃ p, buildSleepPropertiesForTargetDate sdValid 0 true = some p := ⟨_, rfl⟩
  obtain ⟨h1, h2⟩ := duplicate_repair_updates_all envValid byDateDup true initState
    0 sdValid props (by decide) (by decide) rfl hb (fun e _ => rfl)
  exact ⟨props, hb, h1, h2⟩

/-- C5: normalizer rejection rules, in order: an absent daily-sleep
sub-structure rejects regardless of policy; a missing start or end
timestamp rejects regardless of policy (where "missing" is the code's
falsiness test `not start_ts`, covering absent, null and the sentinel value
0, cf. the spec's fake-zero glossary); otherwise a zero deep+light+REM sum
rejects exactly under the enabled skip-zero policy; in all remaining cases
a record is produced. -/
theorem normalizer_rejection_rules (sd : SleepData) (d : Int) (z : Bool) :
    (sd.dailySleepDTO = none → buildSleepPropertiesForTargetDate sd d z = none) ∧
    (∀ ds, sd.dailySleepDTO = some ds →
      (optTruthy ds.sleepStartTimestampGMT = false ∨
       optTruthy ds.sleepEndTimestampGMT = false) →
      buildSleepPropertiesForTargetDate sd d z = none) ∧
    (∀ ds, sd.dailySleepDTO = some ds →
      optTruthy ds.sleepStartTimestampGMT = true →
      optTruthy ds.sleepEndTimestampGMT = true →
      z = true →
      ds.deepSleepSeconds.getD 0 + ds.lightSleepSeconds.getD 0 +
        ds.remSleepSeconds.getD 0 = 0 →
      buildSleepPropertiesForTargetDate sd d z = none) ∧
    (∀ ds, sd.dailySleepDTO = some ds →
      optTruthy ds.sleepStartTimestampGMT = true →
      optTruthy ds.sleepEndTimestampGMT = true →
      (z = true → ds.deepSleepSeconds.getD 0 + ds.lightSleepSeconds.getD 0 +
        ds.remSleepSeconds.getD 0 ≠ 0) →
      ∃ props, buildSleepPropertiesForTargetDate sd d z = some props) := by
  refine ⟨?_, ?_, ?_, ?_⟩
  · intro h
    simp [buildSleepPropertiesForTargetDate, h]
  · intro ds hds hor
    rcases hor with h | h <;>
      simp [buildSleepPropertiesForTargetDate, hds, h]
  · intro ds hds h1 h2 hz htot
    subst hz
    have hcond : (!(optTruthy ds.sleepStartTimestampGMT) ||
        !(optTruthy ds.sleepEndTimestampGMT)) = false := by
      rw [h1, h2]
      rfl
    have hcond2 : (true && (ds.deepSleepSeconds.getD 0 +
        ds.lightSleepSeconds.getD 0 + ds.remSleepSeconds.getD 0 == 0)) = true := by
      rw [htot]
      rfl
    unfold buildSleepPropertiesForTargetDate
    simp [hds, hcond, hcond2]
  · intro ds hds h1 h2 hne
    have hcond : (!(optTruthy ds.sleepStartTimestampGMT) ||
        !(optTruthy ds.sleepEndTimestampGMT)) = false := by
      rw [h1, h2]
      rfl
    have hcond2 : (z && (ds.deepSleepSeconds.getD 0 +
        ds.lightSleepSeconds.getD 0 + ds.remSleepSeconds.getD 0 == 0)) = false := by
      cases z with
      | false => rfl
      | true =>
        have ht := hne rfl
        simp [ht]
    unfold buildSleepPropertiesForTargetDate
    simp [hds, hcond, hcond2]

/-- Witness for C5: all four rejection/acceptance rules at concrete payloads. -/
theorem normalizer_rejection_rules_witness :
    buildSleepPropertiesForTargetDate
      { dailySleepDTO := none, restingHeartRate := some 60 } 0 false = none ∧
    buildSleepPropertiesForTargetDate sdNoStart 0 false = none ∧
    buildSleepPropertiesForTargetDate sdZeroSleep 0 true = none ∧
    ∃ props, buildSleepPropertiesForTargetDate sdValid 0 true = some props :=
  ⟨(normalizer_rejection_rules _ 0 false).1 rfl,
   (normalizer_rejection_rules sdNoStart 0 false).2.1 dsNoStart rfl (Or.inl rfl),
   (normalizer_rejection_rules sdZeroSleep 0 true).2.2.1 dsZeroSleep rfl rfl rfl
     rfl rfl,
   (normalizer_rejection_rules sdValid 0 true).2.2.2 dsValid rfl rfl rfl
     (fun _ => by decide)⟩

/-- C10: a start or end timestamp equal to 0 in a present daily-sleep
sub-structure is treated exactly like a missing one: the normalizer
rejects, regardless of the skip-zero policy. -/
theorem zero_timestamp_rejected (sd : SleepData) (ds : DailySleep) (d : Int)
    (z : Bool) (hds : sd.dailySleepDTO = some ds)
    (h : ds.sleepStartTimestampGMT = some 0 ∨
         ds.sleepEndTimestampGMT = some 0) :
    buildSleepPropertiesForTargetDate sd d z = none := by
  have hcond : (!(optTruthy ds.sleepStartTimestampGMT) ||
      !(optTruthy ds.sleepEndTimestampGMT)) = true := by
    rcases h with h | h <;> rw [h] <;> simp [optTruthy]
  unfold buildSleepPropertiesForTargetDate
  simp [hds, hcond]

/-- Witness for C10 at a payload with a genuine zero start timestamp and the
skip-zero policy disabled. -/
theorem zero_timestamp_rejected_witness :
    sdZeroStart.dailySleepDTO = some dsZeroStart ∧
    buildSleepPropertiesForTargetDate sdZeroStart 0 false = none :=
  ⟨rfl, zero_timestamp_rejected sdZeroStart dsZeroStart 0 false rfl (Or.inl rfl)⟩

/-- C2 (amended): date pinning holds in the sleep sync — every built
property set carries the loop's target date, whatever date the payload
embeds — while the steps sync pins nothing: a created entry's `Date` is the
payload's embedded `calendarDate` (also the key of the existence lookup),
and the steps update path writes no `Date` at all. -/
theorem date_pinning_amended :
    (∀ (sd : SleepData) (d : Int) (z : Bool) (p : SleepProps),
      buildSleepPropertiesForTargetDate sd d z = some p → p.dateStart = d) ∧
    (∀ (fetch : Int → Option StepsPayload) (existing : Option Int → Option Nat)
      (d : Int) (p : StepsProps), stepsSyncDayCreate fetch existing d = some p →
      ∃ sp, fetch d = some sp ∧ p.dateStart = sp.calendarDate) := by
  constructor
  · intro sd d z p h
    exact build_dateStart h
  · intro fetch existing d p h
    unfold stepsSyncDayCreate at h
    cases hf : fetch d with
    | none =>
      simp only [hf] at h
      exact Option.noConfusion h
    | some sp =>
      simp only [hf] at h
      cases he : existing sp.calendarDate with
      | some k =>
        simp only [he] at h
        exact Option.noConfusion h
      | none =>
        simp only [he] at h
        exact ⟨sp, rfl, createDailySteps_date h⟩

/-- C2 counterexample: with the loop at day 0 and a payload embedding
calendar date 1, the steps sync creates an entry whose `Date` is day 1, not
the loop's target day 0. -/
theorem steps_create_writes_payload_date_cx :
    (stepsSyncDayCreate stepsFetchCx stepsNoExisting 0).map StepsProps.dateStart =
      some (some 1) ∧ (some 1 : Option Int) ≠ some (0 : Int) :=
  ⟨rfl, by decide⟩

/-- Witness for the amended C2 at concrete inputs on both sides. -/
theorem date_pinning_amended_witness :
    (∃ p, buildSleepPropertiesForTargetDate sdValid 5 true = some p ∧
      p.dateStart = 5) ∧
    (∃ p, stepsSyncDayCreate stepsFetchCx stepsNoExisting 0 = some p ∧
      ∃ sp, stepsFetchCx 0 = some sp ∧ p.dateStart = sp.calendarDate) := by
  constructor
  · obtain ⟨p, hp⟩ :
        ∃ p, buildSleepPropertiesForTargetDate sdValid 5 true = some p := ⟨_, rfl⟩
    exact ⟨p, hp, date_pinning_amended.1 sdValid 5 true p hp⟩
  · obtain ⟨p, hp⟩ :
        ∃ p, stepsSyncDayCreate stepsFetchCx stepsNoExisting 0 = some p := ⟨_, rfl⟩
    exact ⟨p, hp, date_pinning_amended.2 stepsFetchCx stepsNoExisting 0 p hp⟩

/-- C1 counterexample: with upstream data lacking a resting heart rate, the
first run over a one-day window completes without errors (one create), yet
the second run over the same window and fixture performs an update write
instead of skipping with zero writes. -/
theorem sleep_sync_not_idempotent_without_rhr_cx :
    (runOnStore envNoRhr [] 0 1 true).map
        (fun st => (st.errors, st.created, st.writes.length)) = .ok (0, 1, 1) ∧
    (runOnStore envNoRhr (storeAfter envNoRhr [] 0 1 true) 0 1 true).map
        (fun st => (st.skipped, st.updated, st.writes.length)) = .ok (0, 1, 1) :=
  ⟨rfl, rfl⟩

/-- Witness for the amended C1 at a one-day window over an empty store and
a payload carrying resting heart rate 60. -/
theorem sleep_sync_second_run_skips_witness :
    (runOnStore envValid [] 0 1 true).map RunState.errors = .ok 0 ∧
    (runOnStore envValid (storeAfter envValid [] 0 1 true) 0 1 true).map
        (fun st => (st.created, st.updated, st.skipped, st.writes)) =
      .ok (0, 0, 1, ([] : List WriteOp)) :=
  sleep_sync_second_run_skips envValid [] 0 1 true
    ⟨fun _ => ⟨sdValid, rfl⟩, fun _ => rfl, fun _ _ => rfl⟩
    (by simp)
    (by
      intro d hd sd props hf hb
      have hsd : sdValid = sd := Except.ok.inj hf
      subst hsd
      rw [build_restingHR rfl hb]
      decide)

/-- C6 (amended): the sleep sync's window is the inclusive range
`[today-(N-1), today]` containing today (with `today` taken as the KST
civil day, `todayKstOf`); the steps sync instead visits `[today-365,
today-1]`, excluding today, with its `today` taken from the execution
environment's local zone (`todayLocalOf`). -/
theorem window_planning_amended (today : Int) (n : Nat) (h : 1 ≤ n) :
    (∀ d, d ∈ windowDates today n ↔ today - ((n : Int) - 1) ≤ d ∧ d ≤ today) ∧
    today ∈ windowDates today n ∧
    (∀ d, d ∈ stepsDates today ↔ today - 365 ≤ d ∧ d < today) ∧
    today ∉ stepsDates today := by
  refine ⟨fun d => mem_windowDates, today_mem_windowDates h,
    fun d => mem_stepsDates, ?_⟩
  rw [mem_stepsDates]
  omega

/-- C6 counterexample: the steps run's window starts at `today - 365` (not
`today - (N-1) = today - 364` as claimed for N = 365) and does not contain
today; and its "today" is local: the same instant yields day 0 or day 1
depending on the environment's UTC offset. -/
theorem steps_window_excludes_today_cx :
    (stepsDates 0).head? = some (-365) ∧ ((-365 : Int) ≠ -364) ∧
    (0 : Int) ∉ stepsDates 0 ∧
    todayLocalOf 86395000 0 = 0 ∧ todayLocalOf 86395000 (9 * 3600) = 1 := by
  refine ⟨by decide, by decide, ?_, by decide, by decide⟩
  rw [mem_stepsDates]
  omega

/-- Witness for the amended C6 at a concrete three-day window. -/
theorem window_planning_amended_witness :
    ((10 : Int) ∈ windowDates 10 3 ↔ (10 : Int) - ((3 : Int) - 1) ≤ 10 ∧ (10 : Int) ≤ 10) ∧
    (10 : Int) ∈ windowDates 10 3 ∧
    ((9 : Int) ∈ stepsDates 10 ↔ (10 : Int) - 365 ≤ 9 ∧ (9 : Int) < 10) ∧
    (10 : Int) ∉ stepsDates 10 := by
  obtain ⟨h1, h2, h3, h4⟩ := window_planning_amended 10 3 (by decide)
  exact ⟨h1 10, h2, h3 9, h4⟩

/-- C7: per-day failure isolation — a fetch exception, a create exception,
or an update exception at a date increments the errored counter by exactly
one (fetch and create failures performing no write), the date loop is a
fold that always proceeds across date-list segments, and whenever indexing
succeeds the driver returns its summary counters rather than an error. -/
theorem per_day_failure_isolation (env : Env) (byDate : Int → List SinkEntry)
    (z : Bool) (st : RunState) (d : Int) :
    (∀ msg, hasValidEntry (byDate d) = false → env.fetch d = .error msg →
      (syncDay env byDate z st d).errors = st.errors + 1 ∧
      (syncDay env byDate z st d).writes = st.writes) ∧
    (∀ sd props msg, byDate d = [] → env.fetch d = .ok sd →
      buildSleepPropertiesForTargetDate sd d z = some props →
      env.createErr props = some msg →
      (syncDay env byDate z st d).errors = st.errors + 1 ∧
      (syncDay env byDate z st d).writes = st.writes) ∧
    (∀ sd props msg good bad rest, hasValidEntry (byDate d) = false →
      byDate d = good ++ bad :: rest → env.fetch d = .ok sd →
      buildSleepPropertiesForTargetDate sd d z = some props →
      (∀ e ∈ good, env.updateErr e.page_id props = none) →
      env.updateErr bad.page_id props = some msg →
      (syncDay env byDate z st d).errors = st.errors + 1) ∧
    (∀ ds1 ds2, runLoop env byDate z (ds1 ++ ds2) st =
      runLoop env byDate z ds2 (runLoop env byDate z ds1 st)) ∧
    (∀ (chunk : List RawPage) (today : Int) (n : Nat),
      syncSleepRangeLastNDays env [.ok chunk] today n z =
        .ok (runLoop env (chunk.foldl addPage emptyIndex) z
          (windowDates today n) initState)) := by
  refine ⟨?_, ?_, ?_, ?_, ?_⟩
  · intro msg hv hf
    rw [syncDay_fetchErr env byDate z st d msg hv hf]
    exact ⟨rfl, rfl⟩
  · intro sd props msg hemp hf hb hc
    rw [syncDay_createErr env byDate z st d sd props msg hemp hf hb hc]
    exact ⟨rfl, rfl⟩
  · intro sd props msg good bad rest hv hsplit hf hb hgood hbad
    have hne : byDate d ≠ [] := by
      rw [hsplit]
      simp
    rw [syncDay_update env byDate z st d sd props hv hne hf hb]
    rw [hsplit, updateLoop_firstFail env props good bad rest _ msg hgood hbad]
  · intro ds1 ds2
    unfold runLoop
    rw [List.foldl_append]
  · intro chunk today n
    rfl

/-- Witness for C7: a raising fetch at day 0 is counted as one error and
writes nothing. -/
theorem per_day_failure_isolation_witness :
    (syncDay envFetchFail byDateEmpty true initState 0).errors =
      initState.errors + 1 ∧
    (syncDay envFetchFail byDateEmpty true initState 0).writes =
      initState.writes :=
  (per_day_failure_isolation envFetchFail byDateEmpty true initState 0).1
    "network" rfl rfl

/-- C8: sink indexing is complete and all-or-nothing — over successful
responses the cursor-following loop accumulates, per date, exactly the
entries of every page of every chunk; and a raising paging call (after any
number of successful ones) is caught neither in the indexer nor in the
driver, so the whole run returns that error before any per-day decision. -/
theorem sink_indexing_complete_all_or_nothing
    (pss : List (List RawPage)) (e : String)
    (rest : List (Except String (List RawPage)))
    (idx : Int → List SinkEntry) (env : Env) (today : Int) (n : Nat) (z : Bool) :
    (∃ res, notionFetchExistingPagesByDate (pss.map .ok) idx = .ok res ∧
      ∀ d, res d = idx d ++ (pagesOfDay pss.flatten d).map pageEntry) ∧
    notionFetchExistingPagesByDate (pss.map .ok ++ .error e :: rest) idx =
      .error e ∧
    syncSleepRangeLastNDays env (pss.map .ok ++ .error e :: rest) today n z =
      .error e := by
  refine ⟨⟨_, notionFetch_ok pss idx, ?_⟩, notionFetch_error pss e rest idx, ?_⟩
  · intro d
    rw [foldl_addPage_flatten, foldl_addPage_apply]
  · unfold syncSleepRangeLastNDays
    rw [notionFetch_error pss e rest emptyIndex]

/-- C9 (amended): a missing numeric field defaults to 0 before any rounding
or division, in both the activity builder (`activity.get(k, 0)`) and the
sleep normalizer; the sleep normalizer also replaces present-null values by
0 (its `or 0`), but in the activity builder a present null reaches the
rounding/division/comparison and raises instead of defaulting. -/
theorem numeric_defaults_amended :
    (∀ a : Activity, a.NoNulls → ∃ r, createActivityNumericProps a = .ok r) ∧
    (∀ a : Activity,
      createActivityNumericProps a = createActivityNumericProps a.zeroFill) ∧
    (∀ (sd : SleepData) (ds : DailySleep) (d : Int) (z : Bool),
      sd.dailySleepDTO = some ds →
      buildSleepPropertiesForTargetDate sd d z =
        buildSleepPropertiesForTargetDate
          { sd with dailySleepDTO := some { ds with
              deepSleepSeconds := some (ds.deepSleepSeconds.getD 0),
              lightSleepSeconds := some (ds.lightSleepSeconds.getD 0),
              remSleepSeconds := some (ds.remSleepSeconds.getD 0),
              awakeSleepSeconds := some (ds.awakeSleepSeconds.getD 0),
              restingHeartRate := some (ds.restingHeartRate.getD 0) } } d z) := by
  refine ⟨?_, ?_, ?_⟩
  · rintro a ⟨h1, h2, h3, h4, h5, h6, h7, h8⟩
    obtain ⟨v1, e1⟩ := pyGetNum_of_noNull h1
    obtain ⟨v2, e2⟩ := pyGetNum_of_noNull h2
    obtain ⟨v3, e3⟩ := pyGetNum_of_noNull h3
    obtain ⟨v4, e4⟩ := pyGetNum_of_noNull h4
    obtain ⟨v5, e5⟩ := pyGetNum_of_noNull h5
    obtain ⟨v6, e6⟩ := pyGetNum_of_noNull h6
    obtain ⟨v7, e7⟩ := pyGetNum_of_noNull h7
    obtain ⟨v8, e8⟩ := pyGetNum_of_noNull h8
    obtain ⟨s, hs⟩ := formatPace_some_isOk v4
    refine ⟨{ distanceKm := round2 (v1 / 1000), durationMin := round2 (v2 / 60),
              calories := round v3, avgPace := s, avgPower := round1 v5,
              maxPower := round1 v6, aerobic := round1 v7,
              anaerobic := round1 v8 }, ?_⟩
    unfold createActivityNumericProps
    rw [e1, e2, e3, e4, e5, e6, e7, e8, hs]
    rfl
  · intro a
    rfl
  · intro sd ds d z hds
    obtain ⟨dto, rhr⟩ := sd
    dsimp only at hds
    subst hds
    cases rhr with
    | none => rfl
    | some v => rfl

/-- C9 counterexample: an activity whose `distance` is present but null
reaches the division and raises instead of being replaced by 0; likewise a
null average speed raises in `format_pace`. -/
theorem activity_null_numeric_raises_cx :
    createActivityNumericProps activityNullDist = .error () ∧
    formatPace (pyGetNum (some (none : Option ℚ))) = .error () :=
  ⟨rfl, rfl⟩

/-- Witness for the amended C9 at a concrete mixed activity and a sleep
payload with absent duration fields. -/
theorem numeric_defaults_amended_witness :
    Activity.NoNulls activityMixed ∧
    (∃ r, createActivityNumericProps activityMixed = .ok r) ∧
    createActivityNumericProps activityMixed =
      createActivityNumericProps activityMixed.zeroFill ∧
    buildSleepPropertiesForTargetDate sdNoRhr 0 true =
      buildSleepPropertiesForTargetDate
        { sdNoRhr with dailySleepDTO := some { dsValid with
            deepSleepSeconds := some (dsValid.deepSleepSeconds.getD 0),
            lightSleepSeconds := some (dsValid.lightSleepSeconds.getD 0),
            remSleepSeconds := some (dsValid.remSleepSeconds.getD 0),
            awakeSleepSeconds := some (dsValid.awakeSleepSeconds.getD 0),
            restingHeartRate := some (dsValid.restingHeartRate.getD 0) } } 0 true := by
  have hno : Activity.NoNulls activityMixed := by
    refine ⟨?_, ?_, ?_, ?_, ?_, ?_, ?_, ?_⟩ <;> decide
  exact ⟨hno, numeric_defaults_amended.1 activityMixed hno,
    numeric_defaults_amended.2.1 activityMixed,
    numeric_defaults_amended.2.2 sdNoRhr dsValid 0 true rfl⟩
